import Mathlib

/-! Admission webhook: affinity mutator and protocol handler.

A shallow embedding of `cmd/admission-webhook` (`const.go`, `admission_webhook.go`,
`main.go`).  The Go functions are pure once their collaborators are made explicit:

* the API machinery decoder, `encoding/json` and the order in which the Go runtime
  ranges over a map are fields of `Env`;
* the `http.ResponseWriter` is an explicit state threaded through the handler;
* a run-time panic (nil pointer dereference) is an explicit outcome.

Go strings are Lean strings, a Go `error` is the text returned by its `Error()` method,
and a slice of patch operations is a list (the nil slice is the empty list).
-/

namespace Webhook

/-! ## Bytes and strings -/

/-- Byte slices, one natural number per byte. -/
abbrev Bytes := List Nat

/-- The conversion of a string to its bytes, as in the Go expression that casts a
string to a byte slice. -/
def stringBytes (s : String) : Bytes := s.toUTF8.toList.map UInt8.toNat

/-! ## Constants -/

/-- The constant of `const.go`. -/
def jsonContentType : String := "application/json"

/-- The constant `http.MethodPost` of net/http. -/
def MethodPost : String := "POST"

/-- The constant `http.StatusOK` of net/http. -/
def StatusOK : Nat := 200

/-- The constant `http.StatusMethodNotAllowed` of net/http. -/
def StatusMethodNotAllowed : Nat := 405

/-- The constant `http.StatusInternalServerError` of net/http. -/
def StatusInternalServerError : Nat := 500

/-- The constant `metav1.NamespaceSystem` of the API machinery. -/
def NamespaceSystem : String := "kube-system"

/-- The constant `metav1.NamespacePublic` of the API machinery. -/
def NamespacePublic : String := "kube-public"

/-- The constant `admission.PatchTypeJSONPatch` of the admission API. -/
def PatchTypeJSONPatch : String := "JSONPatch"

/-- The constant `corev1.NodeSelectorOpIn` of the core API. -/
def NodeSelectorOpIn : String := "In"

/-- The constant `metav1.LabelSelectorOpIn` of the API machinery. -/
def LabelSelectorOpIn : String := "In"

/-! ## Kubernetes API objects (the fields the webhook reads or writes) -/

/-- The type `metav1.GroupVersionResource`. -/
structure GroupVersionResource where
  Group : String
  Version : String
  Resource : String
deriving DecidableEq, Repr

/-- The type `corev1.NodeSelectorRequirement`. -/
structure NodeSelectorRequirement where
  Key : String
  Operator : String
  Values : List String
deriving DecidableEq, Repr

/-- The type `corev1.NodeSelectorTerm`. -/
structure NodeSelectorTerm where
  MatchExpressions : List NodeSelectorRequirement := []
  MatchFields : List NodeSelectorRequirement := []
deriving DecidableEq, Repr

/-- The type `corev1.PreferredSchedulingTerm`. -/
structure PreferredSchedulingTerm where
  Weight : Int
  Preference : NodeSelectorTerm
deriving DecidableEq, Repr

/-- The type `metav1.LabelSelectorRequirement`. -/
structure LabelSelectorRequirement where
  Key : String
  Operator : String
  Values : List String
deriving DecidableEq, Repr

/-- The type `metav1.LabelSelector`. -/
structure LabelSelector where
  MatchLabels : List (String × String) := []
  MatchExpressions : List LabelSelectorRequirement := []
deriving DecidableEq, Repr

/-- The type `corev1.PodAffinityTerm`. -/
structure PodAffinityTerm where
  LabelSelector : Option LabelSelector := none
  Namespaces : List String := []
  TopologyKey : String := ""
deriving DecidableEq, Repr

/-- The type `corev1.WeightedPodAffinityTerm`. -/
structure WeightedPodAffinityTerm where
  Weight : Int
  PodAffinityTerm : PodAffinityTerm
deriving DecidableEq, Repr

/-- The type `corev1.NodeAffinity`; a nil slice is `none`, a slice that is present
(empty or not) is `some`. -/
structure NodeAffinity where
  PreferredDuringSchedulingIgnoredDuringExecution : Option (List PreferredSchedulingTerm) := none
deriving DecidableEq, Repr

/-- The type `corev1.PodAntiAffinity`. -/
structure PodAntiAffinity where
  RequiredDuringSchedulingIgnoredDuringExecution : Option (List PodAffinityTerm) := none
  PreferredDuringSchedulingIgnoredDuringExecution : Option (List WeightedPodAffinityTerm) := none
deriving DecidableEq, Repr

/-- The type `corev1.Affinity`; each pointer field is an option. -/
structure Affinity where
  NodeAffinity : Option NodeAffinity := none
  PodAntiAffinity : Option PodAntiAffinity := none
deriving DecidableEq, Repr

/-- The type `corev1.PodSpec`. -/
structure PodSpec where
  Affinity : Option Affinity := none
deriving DecidableEq, Repr

/-- The type `corev1.PodTemplateSpec`; `Labels` is the label map of the embedded object
metadata, as its list of entries (a nil map has no entries). -/
structure PodTemplateSpec where
  Labels : List (String × String) := []
  Spec : PodSpec := {}
deriving DecidableEq, Repr

/-- The type `appsv1.DeploymentSpec`; `Replicas` is a pointer to a 32-bit integer. -/
structure DeploymentSpec where
  Replicas : Option Int := none
  Template : PodTemplateSpec := {}
deriving DecidableEq, Repr

/-- The type `appsv1.Deployment`. -/
structure Deployment where
  Spec : DeploymentSpec := {}
deriving DecidableEq, Repr

/-- The type `runtime.RawExtension`. -/
structure RawExtension where
  Raw : Bytes := []
deriving DecidableEq, Repr

/-- The type `admission.AdmissionRequest`. -/
structure AdmissionRequest where
  UID : String
  Resource : GroupVersionResource
  Namespace : String
  Object : RawExtension
deriving DecidableEq, Repr

/-- The type `metav1.Status`. -/
structure Status where
  Message : String
deriving DecidableEq, Repr

/-- The type `admission.AdmissionResponse`; `Patch` is `none` for the nil byte slice and
`PatchType` is `none` for the nil pointer. -/
structure AdmissionResponse where
  UID : String
  Allowed : Bool := false
  Result : Option Status := none
  Patch : Option Bytes := none
  PatchType : Option String := none
deriving DecidableEq, Repr

/-- The type `admission.AdmissionReview`, with the two fields of its `TypeMeta`. -/
structure AdmissionReview where
  Kind : String := ""
  APIVersion : String := ""
  Request : Option AdmissionRequest := none
  Response : Option AdmissionResponse := none
deriving DecidableEq, Repr

/-! ## Patch operations -/

/-- The values the webhook stores in the `Value` field of a patch operation, which has
the empty interface type. -/
inductive PatchValue where
  /-- The empty map literal. -/
  | emptyObject
  /-- The empty slice literal. -/
  | emptyArray
  /-- A weighted node-selector term. -/
  | nodeTerm (t : PreferredSchedulingTerm)
  /-- A weighted pod-affinity term. -/
  | podTerm (t : WeightedPodAffinityTerm)
  /-- Any other Go value, named by a description. -/
  | other (v : String)
deriving DecidableEq, Repr

/-- The type `patchOperation` of `admission_webhook.go`. -/
structure patchOperation where
  Op : String
  Path : String
  Value : PatchValue
deriving DecidableEq, Repr

/-- What a call of a Go function of type `admitFunc` does: it returns a pair of a patch
slice and an error (`none` is the nil error), or it panics. -/
inductive AdmitResult where
  | returned (patches : List patchOperation) (err : Option String)
  | panicked
deriving DecidableEq, Repr

/-- The type `admitFunc` of `admission_webhook.go`. -/
abbrev admitFunc := AdmissionRequest → AdmitResult

/-! ## Collaborators outside the repository -/

/-- The library and run-time behaviour the webhook relies on. -/
structure Env where
  /-- The universal deserializer applied to the body, into an admission review. -/
  decodeReview : Bytes → Except String AdmissionReview
  /-- The universal deserializer applied to the raw object, into a deployment. -/
  decodeDeployment : Bytes → Except String Deployment
  /-- The function `json.Marshal` on a slice of patch operations. -/
  marshalPatch : List patchOperation → Except String Bytes
  /-- The function `json.Marshal` on a pointer to an admission review. -/
  marshalReview : AdmissionReview → Except String Bytes
  /-- The order in which one `range` loop visits the entries of a label map; Go leaves
  it unspecified, so any permutation of the entries may be returned. -/
  rangeLabels : List (String × String) → List (String × String)

/-! ## The decision function (`main.go`) -/

/-- The variable `deployResource` of `main.go`. -/
def deployResource : GroupVersionResource :=
  { Group := "apps", Version := "v1", Resource := "deployments" }

/-- The function `affinityFunc` of `main.go`.  The local variable `deploy` is mutated by
the source; here the containers it fills in are the local values `affinity`,
`nodeAffinity` and `podAntiAffinity`. -/
def affinityFunc (env : Env) (req : AdmissionRequest) : AdmitResult :=
  -- only process deployment resources; other objects are passed through
  if req.Resource ≠ deployResource then
    .returned [] none
  else
    -- parse the deployment object
    match env.decodeDeployment req.Object.Raw with
    | .error err => .returned [] (some ("could not deserialize deploy object: " ++ err))
    | .ok deploy =>
      let patches : List patchOperation := []
      let (affinity, patches) :=
        match deploy.Spec.Template.Spec.Affinity with
        | none =>
          (({} : Affinity), patches ++ [({
            Op := "add",
            Path := "/spec/template/spec/affinity",
            Value := .emptyObject } : patchOperation)])
        | some a => (a, patches)
      let (nodeAffinity, patches) :=
        match affinity.NodeAffinity with
        | none =>
          (({} : NodeAffinity), patches ++ [({
            Op := "add",
            Path := "/spec/template/spec/affinity/nodeAffinity",
            Value := .emptyObject } : patchOperation)])
        | some n => (n, patches)
      let patches :=
        match nodeAffinity.PreferredDuringSchedulingIgnoredDuringExecution with
        | none =>
          patches ++ [({
            Op := "add",
            Path := "/spec/template/spec/affinity/nodeAffinity/preferredDuringSchedulingIgnoredDuringExecution",
            Value := .emptyArray } : patchOperation)]
        | some _ => patches
      -- single instance deployment might be a pseudo-requirement
      match deploy.Spec.Replicas with
      | none => .panicked
      | some replicas =>
        if replicas = 1 then
          -- single instance should be on on-demand
          .returned (patches ++ [({
            Op := "add",
            Path := "/spec/template/spec/affinity/nodeAffinity/preferredDuringSchedulingIgnoredDuringExecution/-",
            Value := .nodeTerm {
              Weight := 10,
              Preference := {
                MatchExpressions := [{
                  Key := "node.kubernetes.io/capacity",
                  Operator := NodeSelectorOpIn,
                  Values := ["on-demand"] }] } } } : patchOperation)]) none
        else
          let patches := patches ++ [({
            Op := "add",
            Path := "/spec/template/spec/affinity/nodeAffinity/preferredDuringSchedulingIgnoredDuringExecution/-",
            Value := .nodeTerm {
              Weight := 20,
              Preference := {
                MatchExpressions := [{
                  Key := "node.kubernetes.io/capacity",
                  Operator := NodeSelectorOpIn,
                  Values := ["spot"] }] } } } : patchOperation)]
          let (podAntiAffinity, patches) :=
            match affinity.PodAntiAffinity with
            | none =>
              (({} : PodAntiAffinity), patches ++ [({
                Op := "add",
                Path := "/spec/template/spec/affinity/podAntiAffinity",
                Value := .emptyObject } : patchOperation)])
            | some p => (p, patches)
          let patches :=
            match podAntiAffinity.PreferredDuringSchedulingIgnoredDuringExecution with
            | none =>
              patches ++ [({
                Op := "add",
                Path := "/spec/template/spec/affinity/podAntiAffinity/preferredDuringSchedulingIgnoredDuringExecution",
                Value := .emptyArray } : patchOperation)]
            | some _ => patches
          let patches :=
            (env.rangeLabels deploy.Spec.Template.Labels).foldl
              (fun (patches : List patchOperation) (kv : String × String) =>
                let key := kv.1
                let value := kv.2
                let patches := patches ++ [({
                  Op := "add",
                  Path := "/spec/template/spec/affinity/podAntiAffinity/preferredDuringSchedulingIgnoredDuringExecution/-",
                  Value := .podTerm {
                    Weight := 30,
                    PodAffinityTerm := {
                      LabelSelector := some {
                        MatchExpressions := [{
                          Key := key,
                          Operator := LabelSelectorOpIn,
                          Values := [value] }] },
                      TopologyKey := "topology.kubernetes.io/zone" } } } : patchOperation)]
                let patches := patches ++ [({
                  Op := "add",
                  Path := "/spec/template/spec/affinity/podAntiAffinity/preferredDuringSchedulingIgnoredDuringExecution/-",
                  Value := .podTerm {
                    Weight := 20,
                    PodAffinityTerm := {
                      LabelSelector := some {
                        MatchExpressions := [{
                          Key := key,
                          Operator := LabelSelectorOpIn,
                          Values := [value] }] },
                      TopologyKey := "beta.kubernetes.io/instance-type" } } } : patchOperation)]
                patches ++ [({
                  Op := "add",
                  Path := "/spec/template/spec/affinity/podAntiAffinity/preferredDuringSchedulingIgnoredDuringExecution/-",
                  Value := .podTerm {
                    Weight := 10,
                    PodAffinityTerm := {
                      LabelSelector := some {
                        MatchExpressions := [{
                          Key := key,
                          Operator := LabelSelectorOpIn,
                          Values := [value] }] },
                      TopologyKey := "kubernetes.io/hostname" } } } : patchOperation)])
              patches
          .returned patches none

/-! ## The protocol handler (`admission_webhook.go`) -/

/-- The request header of net/http: canonical keys with their values. -/
abbrev Header := List (String × List String)

/-- The method `Header.Get` of net/http: the first value of the key, or the empty
string when the key has no value. -/
def Header.Get (h : Header) (key : String) : String :=
  match h.lookup key with
  | some (v :: _) => v
  | _ => ""

/-- The fields of `http.Request` the handler uses; `Body` is what reading the whole
body with `io.ReadAll` yields. -/
structure Request where
  Method : String
  Header : Header
  Body : Except String Bytes

/-- The state of an `http.ResponseWriter`: the status code once the header is written,
and the bytes written so far. -/
structure ResponseWriter where
  status : Option Nat := none
  body : Bytes := []
deriving DecidableEq, Repr

/-- The method `WriteHeader` of net/http: the first call fixes the status code, a later
call is superfluous and changes nothing. -/
def ResponseWriter.WriteHeader (w : ResponseWriter) (statusCode : Nat) : ResponseWriter :=
  match w.status with
  | none => { w with status := some statusCode }
  | some _ => w

/-- The method `Write` of net/http: when the header is not yet written it is written
with status 200 first; the bytes are appended to the body. -/
def ResponseWriter.Write (w : ResponseWriter) (b : Bytes) : ResponseWriter :=
  { (w.WriteHeader StatusOK) with body := w.body ++ b }

/-- The function `isKubeNamespace` of `admission_webhook.go`. -/
def isKubeNamespace (ns : String) : Bool :=
  ns == NamespacePublic || ns == NamespaceSystem

/-- Steps 1 to 3 of `doServeAdmitFunc`: the value of the local variable
`admissionReviewResponse` when the final marshalling is reached, or the error returned
before; `none` when the admit function panics. -/
def admissionReviewResponse (env : Env) (w : ResponseWriter) (r : Request) (admitFn : admitFunc) :
    Option (ResponseWriter × Except String AdmissionReview) :=
  -- step 1: Request validation
  if r.Method ≠ MethodPost then
    some (w.WriteHeader StatusMethodNotAllowed,
      .error ("invalid method " ++ r.Method ++ ", only POST requests are allowed"))
  else
    match r.Body with
    | .error err => some (w, .error ("could not read request body: " ++ err))
    | .ok body =>
      let contentType := r.Header.Get "Content-Type"
      if contentType ≠ jsonContentType then
        some (w, .error ("unsupported content type " ++ contentType ++ ", only "
          ++ jsonContentType ++ " is supported"))
      else
        -- step 2: Parse the AdmissionReview request
        match env.decodeReview body with
        | .error err => some (w, .error ("could not deserialize request: " ++ err))
        | .ok admissionReviewReq =>
          match admissionReviewReq.Request with
          | none => some (w, .error "malformed admission review: request is ni")
          | some request =>
            -- step 3: Construct the AdmissionReview response
            let response : AdmissionResponse := { UID := request.UID }
            let outcome : AdmitResult :=
              if !isKubeNamespace request.Namespace then admitFn request
              else .returned [] none
            match outcome with
            | .panicked => none
            | .returned _ (some err) =>
              some (w, .ok {
                Kind := "AdmissionReview",
                APIVersion := "admission.k8s.io/v1",
                Response := some { response with
                  Allowed := false,
                  Result := some { Message := err } } })
            | .returned patchOps none =>
              match env.marshalPatch patchOps with
              | .error err =>
                some (w.WriteHeader StatusInternalServerError,
                  .error ("could not marshal JSON patch: " ++ err))
              | .ok patchBytes =>
                some (w, .ok {
                  Kind := "AdmissionReview",
                  APIVersion := "admission.k8s.io/v1",
                  Response := some { response with
                    Allowed := true,
                    Patch := some patchBytes,
                    PatchType := some PatchTypeJSONPatch } })

/-- The function `doServeAdmitFunc` of `admission_webhook.go`: the writer after the
call and the returned bytes or error; `none` when the admit function panics. -/
def doServeAdmitFunc (env : Env) (w : ResponseWriter) (r : Request) (admitFn : admitFunc) :
    Option (ResponseWriter × Except String Bytes) :=
  match admissionReviewResponse env w r admitFn with
  | none => none
  | some (w, .error err) => some (w, .error err)
  | some (w, .ok review) =>
    -- Return the AdmissionReview with a response as JSON.
    match env.marshalReview review with
    | .error err => some (w, .error ("marshaling response: " ++ err))
    | .ok bytes => some (w, .ok bytes)

/-- The function `serveAdmitFunc` of `admission_webhook.go`: the response written, or
`none` when the call panics.  A failed write is only logged by the source. -/
def serveAdmitFunc (env : Env) (w : ResponseWriter) (r : Request) (admitFn : admitFunc) :
    Option ResponseWriter :=
  match doServeAdmitFunc env w r admitFn with
  | none => none
  | some (w, .error err) =>
    some ((w.WriteHeader StatusInternalServerError).Write (stringBytes err))
  | some (w, .ok bytes) => some (w.Write bytes)

/-- The function `admitFuncHandler` of `admission_webhook.go`, on a fresh writer. -/
def admitFuncHandler (env : Env) (admitFn : admitFunc) (r : Request) : Option ResponseWriter :=
  serveAdmitFunc env {} r admitFn

/-! ## Vocabulary of the properties -/

/-- A JSON pointer `path` is `parent` itself or lies below it. -/
def pathUnder (parent path : String) : Bool :=
  path == parent || (parent ++ "/").toList.isPrefixOf path.toList

/-- Whether a patch operation appends to an array: its path ends in the append
marker. -/
def isAppend (op : patchOperation) : Bool :=
  "/-".toList.isSuffixOf op.Path.toList

/-- The JSON pointer of the parent of `path`: `path` without its last segment. -/
def parentPath (path : String) : String :=
  String.mk ((path.toList.reverse.dropWhile (fun c => c != '/')).drop 1).reverse

/-- The node affinity of a decoded deployment, when the affinity and it are non-nil. -/
def nodeAffinityOf (d : Deployment) : Option NodeAffinity :=
  d.Spec.Template.Spec.Affinity.bind (fun a => a.NodeAffinity)

/-- The pod anti-affinity of a decoded deployment, when the affinity and it are
non-nil. -/
def podAntiAffinityOf (d : Deployment) : Option PodAntiAffinity :=
  d.Spec.Template.Spec.Affinity.bind (fun a => a.PodAntiAffinity)

/-- The preferred node terms of a decoded deployment, when the slice and the containers
above it are non-nil. -/
def nodePreferredOf (d : Deployment) : Option (List PreferredSchedulingTerm) :=
  (nodeAffinityOf d).bind (fun n => n.PreferredDuringSchedulingIgnoredDuringExecution)

/-- The preferred pod anti-affinity terms of a decoded deployment, when the slice and the
containers above it are non-nil. -/
def podPreferredOf (d : Deployment) : Option (List WeightedPodAffinityTerm) :=
  (podAntiAffinityOf d).bind (fun p => p.PreferredDuringSchedulingIgnoredDuringExecution)

/-- Whether the container a JSON pointer names is present in a decoded deployment: the
pod spec always is, a container of the affinity subtree is when its pointer or slice is
non-nil; no other pointer names a container here. -/
def containerExists (d : Deployment) (path : String) : Bool :=
  if path = "/spec/template/spec" then true
  else if path = "/spec/template/spec/affinity" then
    d.Spec.Template.Spec.Affinity.isSome
  else if path = "/spec/template/spec/affinity/nodeAffinity" then
    (nodeAffinityOf d).isSome
  else if path = "/spec/template/spec/affinity/nodeAffinity/preferredDuringSchedulingIgnoredDuringExecution" then
    (nodePreferredOf d).isSome
  else if path = "/spec/template/spec/affinity/podAntiAffinity" then
    (podAntiAffinityOf d).isSome
  else if path = "/spec/template/spec/affinity/podAntiAffinity/preferredDuringSchedulingIgnoredDuringExecution" then
    (podPreferredOf d).isSome
  else false

/-- The label a patch operation selects, when its value is a pod anti-affinity term whose
selector is the single requirement `key In [value]`. -/
def podTermLabel (op : patchOperation) : Option (String × String) :=
  match op.Value with
  | .podTerm t =>
    match t.PodAffinityTerm.LabelSelector with
    | some selector =>
      match selector.MatchExpressions with
      | [requirement] =>
        match requirement.Values with
        | [value] => if requirement.Operator = "In" then some (requirement.Key, value) else none
        | _ => none
      | _ => none
    | none => none
  | _ => none

/-- The node terms carried by the operations of a patch, in order. -/
def nodeTermValues (ops : List patchOperation) : List PreferredSchedulingTerm :=
  ops.filterMap (fun op => match op.Value with
    | .nodeTerm t => some t
    | _ => none)

/-- The pod anti-affinity terms carried by the operations of a patch, in order. -/
def podTermValues (ops : List patchOperation) : List WeightedPodAffinityTerm :=
  ops.filterMap (fun op => match op.Value with
    | .podTerm t => some t
    | _ => none)

/-- Whether every operation of a patch, replayed in order, finds its parent: the parent
of its path is among the containers `present` at the start or is the path of an earlier
operation. -/
def parentsPresent (present : String → Bool) : List patchOperation → Bool
  | [] => true
  | op :: rest =>
    present (parentPath op.Path) && parentsPresent (fun p => present p || p == op.Path) rest

/-! ## Replaying a patch on a decoded deployment

The control plane applies the returned operations to the object as an RFC 6902 patch.
Here the effect of the `add` operation is given on the decoded deployment, for the
pointers of the affinity subtree. -/

/-- The deployment with its affinity replaced. -/
def setAffinity (d : Deployment) (a : Affinity) : Deployment :=
  { d with Spec := { d.Spec with Template := { d.Spec.Template with
      Spec := { d.Spec.Template.Spec with Affinity := some a } } } }

/-- One RFC 6902 `add` operation replayed on a decoded deployment: an object member is
set, an element is appended to an array for a pointer ending in the append marker.  The
result is `none` when the parent of the target is missing, and for an operation other
than the forms above. -/
def applyOp (d : Deployment) (op : patchOperation) : Option Deployment :=
  if op.Op ≠ "add" then none
  else if op.Path = "/spec/template/spec/affinity" then
    match op.Value with
    | .emptyObject => some (setAffinity d {})
    | _ => none
  else
    match d.Spec.Template.Spec.Affinity with
    | none => none
    | some a =>
      if op.Path = "/spec/template/spec/affinity/nodeAffinity" then
        match op.Value with
        | .emptyObject => some (setAffinity d { a with NodeAffinity := some {} })
        | _ => none
      else if op.Path = "/spec/template/spec/affinity/podAntiAffinity" then
        match op.Value with
        | .emptyObject => some (setAffinity d { a with PodAntiAffinity := some {} })
        | _ => none
      else if op.Path = "/spec/template/spec/affinity/nodeAffinity/preferredDuringSchedulingIgnoredDuringExecution" then
        match a.NodeAffinity, op.Value with
        | some n, .emptyArray =>
          some (setAffinity d { a with NodeAffinity := some { n with
            PreferredDuringSchedulingIgnoredDuringExecution := some [] } })
        | _, _ => none
      else if op.Path = "/spec/template/spec/affinity/nodeAffinity/preferredDuringSchedulingIgnoredDuringExecution/-" then
        match a.NodeAffinity, op.Value with
        | some n, .nodeTerm t =>
          match n.PreferredDuringSchedulingIgnoredDuringExecution with
          | some terms =>
            some (setAffinity d { a with NodeAffinity := some { n with
              PreferredDuringSchedulingIgnoredDuringExecution := some (terms ++ [t]) } })
          | none => none
        | _, _ => none
      else if op.Path = "/spec/template/spec/affinity/podAntiAffinity/preferredDuringSchedulingIgnoredDuringExecution" then
        match a.PodAntiAffinity, op.Value with
        | some q, .emptyArray =>
          some (setAffinity d { a with PodAntiAffinity := some { q with
            PreferredDuringSchedulingIgnoredDuringExecution := some [] } })
        | _, _ => none
      else if op.Path = "/spec/template/spec/affinity/podAntiAffinity/preferredDuringSchedulingIgnoredDuringExecution/-" then
        match a.PodAntiAffinity, op.Value with
        | some q, .podTerm t =>
          match q.PreferredDuringSchedulingIgnoredDuringExecution with
          | some terms =>
            some (setAffinity d { a with PodAntiAffinity := some { q with
              PreferredDuringSchedulingIgnoredDuringExecution := some (terms ++ [t]) } })
          | none => none
        | _, _ => none
      else none

/-- The operations of a patch replayed in order; `none` as soon as one fails. -/
def applyPatch : Deployment → List patchOperation → Option Deployment
  | d, [] => some d
  | d, op :: rest =>
    match applyOp d op with
    | none => none
    | some d' => applyPatch d' rest

/-! ## The operations of the decision function, by group

These lists name the groups of operations `affinityFunc` emits; they are used to
state what the function returns on an arbitrary decoded deployment. -/

/-- The on-demand node term appended for a single replica. -/
def onDemandTerm : patchOperation :=
  { Op := "add",
    Path := "/spec/template/spec/affinity/nodeAffinity/preferredDuringSchedulingIgnoredDuringExecution/-",
    Value := .nodeTerm { Weight := 10, Preference := { MatchExpressions := [
      { Key := "node.kubernetes.io/capacity", Operator := "In", Values := ["on-demand"] }] } } }

/-- The spot node term appended otherwise. -/
def spotTerm : patchOperation :=
  { Op := "add",
    Path := "/spec/template/spec/affinity/nodeAffinity/preferredDuringSchedulingIgnoredDuringExecution/-",
    Value := .nodeTerm { Weight := 20, Preference := { MatchExpressions := [
      { Key := "node.kubernetes.io/capacity", Operator := "In", Values := ["spot"] }] } } }

/-- The three pod anti-affinity terms appended for one label. -/
def labelTerms (kv : String × String) : List patchOperation :=
  [ { Op := "add",
      Path := "/spec/template/spec/affinity/podAntiAffinity/preferredDuringSchedulingIgnoredDuringExecution/-",
      Value := .podTerm { Weight := 30, PodAffinityTerm := {
        LabelSelector := some { MatchExpressions := [{ Key := kv.1, Operator := "In", Values := [kv.2] }] },
        TopologyKey := "topology.kubernetes.io/zone" } } },
    { Op := "add",
      Path := "/spec/template/spec/affinity/podAntiAffinity/preferredDuringSchedulingIgnoredDuringExecution/-",
      Value := .podTerm { Weight := 20, PodAffinityTerm := {
        LabelSelector := some { MatchExpressions := [{ Key := kv.1, Operator := "In", Values := [kv.2] }] },
        TopologyKey := "beta.kubernetes.io/instance-type" } } },
    { Op := "add",
      Path := "/spec/template/spec/affinity/podAntiAffinity/preferredDuringSchedulingIgnoredDuringExecution/-",
      Value := .podTerm { Weight := 10, PodAffinityTerm := {
        LabelSelector := some { MatchExpressions := [{ Key := kv.1, Operator := "In", Values := [kv.2] }] },
        TopologyKey := "kubernetes.io/hostname" } } } ]

/-- The scaffold adds for the node affinity: one for each of the affinity, the node
affinity and its preferred-terms array that is absent. -/
def nodeScaffold (d : Deployment) : List patchOperation :=
  (if containerExists d "/spec/template/spec/affinity" then [] else
    [{ Op := "add", Path := "/spec/template/spec/affinity", Value := .emptyObject }]) ++
  (if containerExists d "/spec/template/spec/affinity/nodeAffinity" then [] else
    [{ Op := "add", Path := "/spec/template/spec/affinity/nodeAffinity", Value := .emptyObject }]) ++
  (if containerExists d "/spec/template/spec/affinity/nodeAffinity/preferredDuringSchedulingIgnoredDuringExecution" then [] else
    [{ Op := "add",
       Path := "/spec/template/spec/affinity/nodeAffinity/preferredDuringSchedulingIgnoredDuringExecution",
       Value := .emptyArray }])

/-- The scaffold adds for the pod anti-affinity: one for each of the pod anti-affinity
and its preferred-terms array that is absent. -/
def podScaffold (d : Deployment) : List patchOperation :=
  (if containerExists d "/spec/template/spec/affinity/podAntiAffinity" then [] else
    [{ Op := "add", Path := "/spec/template/spec/affinity/podAntiAffinity", Value := .emptyObject }]) ++
  (if containerExists d "/spec/template/spec/affinity/podAntiAffinity/preferredDuringSchedulingIgnoredDuringExecution" then [] else
    [{ Op := "add",
       Path := "/spec/template/spec/affinity/podAntiAffinity/preferredDuringSchedulingIgnoredDuringExecution",
       Value := .emptyArray }])

/-! ## Sample collaborators, for concrete instances -/

/-- An environment whose decoders return the given values, whose encoders always
succeed and whose map range keeps the given entry order. -/
def sampleEnv (review : Except String AdmissionReview) (deploy : Except String Deployment) : Env :=
  { decodeReview := fun _ => review,
    decodeDeployment := fun _ => deploy,
    marshalPatch := fun ops => .ok [ops.length],
    marshalReview := fun review => .ok [review.Kind.length],
    rangeLabels := fun m => m }

/-- A deployment with the given replica count and labels and no affinity. -/
def sampleDeployment (replicas : Option Int) (labels : List (String × String)) : Deployment :=
  { Spec := { Replicas := replicas, Template := { Labels := labels } } }

/-- An admission request for the given resource in the given namespace. -/
def sampleRequest (resource : GroupVersionResource) (ns : String) : AdmissionRequest :=
  { UID := "705ab4f5-6393-11e8-b7cc-42010a800002", Resource := resource, Namespace := ns,
    Object := { Raw := [123, 125] } }

/-- The resource identity of core/v1 pods. -/
def podsResource : GroupVersionResource :=
  { Group := "", Version := "v1", Resource := "pods" }

/-- A decoded admission review carrying the given inner request. -/
def sampleReview (req : AdmissionRequest) : AdmissionReview :=
  { Request := some req }

/-- An HTTP request with the given method and content type and a two-byte body. -/
def sampleHttp (method contentType : String) : Request :=
  { Method := method, Header := [("Content-Type", [contentType])], Body := .ok [123, 125] }

/-- The same collaborators with the map range visiting the entries in the opposite
order. -/
def reversedRange (env : Env) : Env :=
  { env with rangeLabels := fun m => (env.rangeLabels m).reverse }

/-! ## Auxiliary facts -/

/-- The content-type error text, with the constant spliced in. -/
theorem unsupported_text (contentType : String) :
    "unsupported content type " ++ contentType ++ ", only " ++ jsonContentType ++ " is supported"
      = "unsupported content type " ++ contentType ++ ", only application/json is supported" := by
  have h : ", only " ++ jsonContentType ++ " is supported" = ", only application/json is supported" := by
    decide
  rw [← h]
  simp only [String.append_assoc]

/-- Every envelope built by `admissionReviewResponse` is the deny envelope or the allow
envelope for the inner request of the decoded review, and the writer is untouched. -/
theorem envelope_built (env : Env) (w w' : ResponseWriter) (r : Request) (admitFn : admitFunc)
    (envelope : AdmissionReview)
    (hbuilt : admissionReviewResponse env w r admitFn = some (w', .ok envelope)) :
    w' = w ∧ ∃ (body : Bytes) (review : AdmissionReview) (req : AdmissionRequest),
      r.Body = .ok body ∧ env.decodeReview body = .ok review ∧ review.Request = some req ∧
      ((∃ e, envelope =
          { Kind := "AdmissionReview", APIVersion := "admission.k8s.io/v1",
            Response := some { UID := req.UID, Allowed := false,
                               Result := some { Message := e }, Patch := none,
                               PatchType := none } }) ∨
       (∃ patchBytes, envelope =
          { Kind := "AdmissionReview", APIVersion := "admission.k8s.io/v1",
            Response := some { UID := req.UID, Allowed := true, Result := none,
                               Patch := some patchBytes,
                               PatchType := some PatchTypeJSONPatch } })) := by
  by_cases hm : r.Method = MethodPost
  · cases hb : r.Body with
    | error e => simp [admissionReviewResponse, hm, hb] at hbuilt
    | ok body =>
      by_cases hct : r.Header.Get "Content-Type" = jsonContentType
      · cases hd : env.decodeReview body with
        | error e => simp [admissionReviewResponse, hm, hb, hct, hd] at hbuilt
        | ok review =>
          cases hr : review.Request with
          | none => simp [admissionReviewResponse, hm, hb, hct, hd, hr] at hbuilt
          | some req =>
            simp only [admissionReviewResponse, hm, hb, hct, hd, hr, ne_eq, not_true_eq_false,
              if_false] at hbuilt
            split at hbuilt
            · simp at hbuilt
            · simp only [Option.some.injEq, Prod.mk.injEq, Except.ok.injEq] at hbuilt
              exact ⟨hbuilt.1.symm, body, review, req, rfl, hd, hr, Or.inl ⟨_, hbuilt.2.symm⟩⟩
            · split at hbuilt
              · simp at hbuilt
              · simp only [Option.some.injEq, Prod.mk.injEq, Except.ok.injEq] at hbuilt
                exact ⟨hbuilt.1.symm, body, review, req, rfl, hd, hr, Or.inr ⟨_, hbuilt.2.symm⟩⟩
      · simp [admissionReviewResponse, hm, hb, hct] at hbuilt
  · simp [admissionReviewResponse, hm] at hbuilt

/-- The loop over the labels appends the three terms of each label visited. -/
theorem foldl_labelTerms (visit : List (String × String)) (init : List patchOperation) :
    visit.foldl (fun (patches : List patchOperation) (kv : String × String) =>
        patches ++ [({
          Op := "add",
          Path := "/spec/template/spec/affinity/podAntiAffinity/preferredDuringSchedulingIgnoredDuringExecution/-",
          Value := .podTerm {
            Weight := 30,
            PodAffinityTerm := {
              LabelSelector := some {
                MatchExpressions := [{ Key := kv.1, Operator := LabelSelectorOpIn, Values := [kv.2] }] },
              TopologyKey := "topology.kubernetes.io/zone" } } } : patchOperation)]
        ++ [({
          Op := "add",
          Path := "/spec/template/spec/affinity/podAntiAffinity/preferredDuringSchedulingIgnoredDuringExecution/-",
          Value := .podTerm {
            Weight := 20,
            PodAffinityTerm := {
              LabelSelector := some {
                MatchExpressions := [{ Key := kv.1, Operator := LabelSelectorOpIn, Values := [kv.2] }] },
              TopologyKey := "beta.kubernetes.io/instance-type" } } } : patchOperation)]
        ++ [({
          Op := "add",
          Path := "/spec/template/spec/affinity/podAntiAffinity/preferredDuringSchedulingIgnoredDuringExecution/-",
          Value := .podTerm {
            Weight := 10,
            PodAffinityTerm := {
              LabelSelector := some {
                MatchExpressions := [{ Key := kv.1, Operator := LabelSelectorOpIn, Values := [kv.2] }] },
              TopologyKey := "kubernetes.io/hostname" } } } : patchOperation)]) init
      = init ++ visit.flatMap labelTerms := by
  induction visit generalizing init with
  | nil => simp
  | cons kv rest ih =>
    rw [List.foldl_cons, ih]
    simp [labelTerms, LabelSelectorOpIn]

/-- What `affinityFunc` returns on a decoded deployment whose replica pointer is
non-nil: the node scaffold, then the on-demand term for one replica, and otherwise the
spot term, the pod scaffold and the terms of the labels in the order of the range. -/
theorem affinityFunc_decoded (env : Env) (req : AdmissionRequest) (deploy : Deployment) (n : Int)
    (hres : req.Resource = deployResource)
    (hdec : env.decodeDeployment req.Object.Raw = .ok deploy)
    (hrep : deploy.Spec.Replicas = some n) :
    affinityFunc env req = .returned
      (nodeScaffold deploy ++
        (if n = 1 then [onDemandTerm]
         else spotTerm :: (podScaffold deploy ++
           (env.rangeLabels deploy.Spec.Template.Labels).flatMap labelTerms))) none := by
  unfold affinityFunc
  simp only [hres, ne_eq, not_true_eq_false, if_false, hdec, hrep, foldl_labelTerms]
  by_cases hn : n = 1
  · cases ha : deploy.Spec.Template.Spec.Affinity with
    | none =>
      simp [hn, ha, nodeScaffold, containerExists, nodeAffinityOf, nodePreferredOf, onDemandTerm,
        NodeSelectorOpIn]
    | some a =>
      cases hna : a.NodeAffinity with
      | none =>
        simp [hn, ha, hna, nodeScaffold, containerExists, nodeAffinityOf, nodePreferredOf,
          onDemandTerm, NodeSelectorOpIn]
      | some na =>
        cases hnp : na.PreferredDuringSchedulingIgnoredDuringExecution <;>
          simp [hn, ha, hna, hnp, nodeScaffold, containerExists, nodeAffinityOf, nodePreferredOf,
            onDemandTerm, NodeSelectorOpIn]
  · simp only [hn, if_false]
    cases ha : deploy.Spec.Template.Spec.Affinity with
    | none =>
      simp [ha, foldl_labelTerms, nodeScaffold, podScaffold, containerExists, nodeAffinityOf,
        nodePreferredOf, podAntiAffinityOf, podPreferredOf, spotTerm, NodeSelectorOpIn]
    | some a =>
      cases hna : a.NodeAffinity with
      | none =>
        cases hpa : a.PodAntiAffinity with
        | none =>
          simp [ha, hna, hpa, foldl_labelTerms, nodeScaffold, podScaffold, containerExists,
            nodeAffinityOf, nodePreferredOf, podAntiAffinityOf, podPreferredOf, spotTerm,
            NodeSelectorOpIn]
        | some pa =>
          cases hpp : pa.PreferredDuringSchedulingIgnoredDuringExecution <;>
            simp [ha, hna, hpa, hpp, foldl_labelTerms, nodeScaffold, podScaffold, containerExists,
              nodeAffinityOf, nodePreferredOf, podAntiAffinityOf, podPreferredOf, spotTerm,
              NodeSelectorOpIn]
      | some na =>
        cases hnp : na.PreferredDuringSchedulingIgnoredDuringExecution <;>
        cases hpa : a.PodAntiAffinity with
        | none =>
          simp [ha, hna, hnp, hpa, foldl_labelTerms, nodeScaffold, podScaffold, containerExists,
            nodeAffinityOf, nodePreferredOf, podAntiAffinityOf, podPreferredOf, spotTerm,
            NodeSelectorOpIn]
        | some pa =>
          cases hpp : pa.PreferredDuringSchedulingIgnoredDuringExecution <;>
            simp [ha, hna, hnp, hpa, hpp, foldl_labelTerms, nodeScaffold, podScaffold,
              containerExists, nodeAffinityOf, nodePreferredOf, podAntiAffinityOf, podPreferredOf,
              spotTerm, NodeSelectorOpIn]

/-! ## The decision function on a deployment without affinity -/

/-- C1: on an apps/v1 deployments request whose object decodes to a deployment with
a replica count other than 1, no affinity and the single label `k = v`, `affinityFunc`
returns no error and exactly nine operations: the three node-affinity scaffold adds, the
weight-20 spot term, the two pod-anti-affinity scaffold adds, and the zone (30),
instance-type (20) and hostname (10) terms selecting `k In [v]`, in this order. -/
theorem affinityFunc_multi_replica_no_affinity (env : Env) (req : AdmissionRequest)
    (deploy : Deployment) (n : Int) (k v : String)
    (hres : req.Resource = deployResource)
    (hdec : env.decodeDeployment req.Object.Raw = .ok deploy)
    (hrep : deploy.Spec.Replicas = some n) (hn : n ≠ 1)
    (haff : deploy.Spec.Template.Spec.Affinity = none)
    (hlab : deploy.Spec.Template.Labels = [(k, v)])
    (hrange : (env.rangeLabels deploy.Spec.Template.Labels).Perm deploy.Spec.Template.Labels) :
    affinityFunc env req = .returned [
      { Op := "add", Path := "/spec/template/spec/affinity", Value := .emptyObject },
      { Op := "add", Path := "/spec/template/spec/affinity/nodeAffinity", Value := .emptyObject },
      { Op := "add",
        Path := "/spec/template/spec/affinity/nodeAffinity/preferredDuringSchedulingIgnoredDuringExecution",
        Value := .emptyArray },
      { Op := "add",
        Path := "/spec/template/spec/affinity/nodeAffinity/preferredDuringSchedulingIgnoredDuringExecution/-",
        Value := .nodeTerm { Weight := 20, Preference := { MatchExpressions := [
          { Key := "node.kubernetes.io/capacity", Operator := "In", Values := ["spot"] }] } } },
      { Op := "add", Path := "/spec/template/spec/affinity/podAntiAffinity", Value := .emptyObject },
      { Op := "add",
        Path := "/spec/template/spec/affinity/podAntiAffinity/preferredDuringSchedulingIgnoredDuringExecution",
        Value := .emptyArray },
      { Op := "add",
        Path := "/spec/template/spec/affinity/podAntiAffinity/preferredDuringSchedulingIgnoredDuringExecution/-",
        Value := .podTerm { Weight := 30, PodAffinityTerm := {
          LabelSelector := some { MatchExpressions := [{ Key := k, Operator := "In", Values := [v] }] },
          TopologyKey := "topology.kubernetes.io/zone" } } },
      { Op := "add",
        Path := "/spec/template/spec/affinity/podAntiAffinity/preferredDuringSchedulingIgnoredDuringExecution/-",
        Value := .podTerm { Weight := 20, PodAffinityTerm := {
          LabelSelector := some { MatchExpressions := [{ Key := k, Operator := "In", Values := [v] }] },
          TopologyKey := "beta.kubernetes.io/instance-type" } } },
      { Op := "add",
        Path := "/spec/template/spec/affinity/podAntiAffinity/preferredDuringSchedulingIgnoredDuringExecution/-",
        Value := .podTerm { Weight := 10, PodAffinityTerm := {
          LabelSelector := some { MatchExpressions := [{ Key := k, Operator := "In", Values := [v] }] },
          TopologyKey := "kubernetes.io/hostname" } } }] none := by
  rw [hlab] at hrange
  have hvisit : env.rangeLabels [(k, v)] = [(k, v)] := List.perm_singleton.mp hrange
  simp [affinityFunc, hres, hdec, hrep, hn, haff, hlab, hvisit, NodeSelectorOpIn,
    LabelSelectorOpIn]

/-- The instance of C1 with three replicas and the label `app = foo`. -/
theorem affinityFunc_multi_replica_no_affinity_witness :
    ∃ ops, affinityFunc (sampleEnv (.error "") (.ok (sampleDeployment (some 3) [("app", "foo")])))
        (sampleRequest deployResource "default") = .returned ops none ∧ ops.length = 9 :=
  ⟨_, affinityFunc_multi_replica_no_affinity
      (sampleEnv (.error "") (.ok (sampleDeployment (some 3) [("app", "foo")])))
      (sampleRequest deployResource "default") (sampleDeployment (some 3) [("app", "foo")])
      3 "app" "foo" rfl rfl rfl (by decide) rfl rfl (List.Perm.refl _), rfl⟩

/-- C2: on an apps/v1 deployments request whose object decodes to a deployment with
one replica and no affinity, whatever its labels, `affinityFunc` returns no error and
exactly four operations: add affinity, add nodeAffinity, add the preferred-terms array,
append the weight-10 on-demand node term; none of them has a path at or below
podAntiAffinity. -/
theorem affinityFunc_single_replica_no_affinity (env : Env) (req : AdmissionRequest)
    (deploy : Deployment)
    (hres : req.Resource = deployResource)
    (hdec : env.decodeDeployment req.Object.Raw = .ok deploy)
    (hrep : deploy.Spec.Replicas = some 1)
    (haff : deploy.Spec.Template.Spec.Affinity = none) :
    affinityFunc env req = .returned [
      { Op := "add", Path := "/spec/template/spec/affinity", Value := .emptyObject },
      { Op := "add", Path := "/spec/template/spec/affinity/nodeAffinity", Value := .emptyObject },
      { Op := "add",
        Path := "/spec/template/spec/affinity/nodeAffinity/preferredDuringSchedulingIgnoredDuringExecution",
        Value := .emptyArray },
      { Op := "add",
        Path := "/spec/template/spec/affinity/nodeAffinity/preferredDuringSchedulingIgnoredDuringExecution/-",
        Value := .nodeTerm { Weight := 10, Preference := { MatchExpressions := [
          { Key := "node.kubernetes.io/capacity", Operator := "In", Values := ["on-demand"] }] } } }]
      none ∧
    ∀ ops err, affinityFunc env req = .returned ops err →
      ∀ op ∈ ops, pathUnder "/spec/template/spec/affinity/podAntiAffinity" op.Path = false := by
  have hval : affinityFunc env req = .returned [
      { Op := "add", Path := "/spec/template/spec/affinity", Value := .emptyObject },
      { Op := "add", Path := "/spec/template/spec/affinity/nodeAffinity", Value := .emptyObject },
      { Op := "add",
        Path := "/spec/template/spec/affinity/nodeAffinity/preferredDuringSchedulingIgnoredDuringExecution",
        Value := .emptyArray },
      { Op := "add",
        Path := "/spec/template/spec/affinity/nodeAffinity/preferredDuringSchedulingIgnoredDuringExecution/-",
        Value := .nodeTerm { Weight := 10, Preference := { MatchExpressions := [
          { Key := "node.kubernetes.io/capacity", Operator := "In", Values := ["on-demand"] }] } } }]
      none := by
    simp [affinityFunc, hres, hdec, hrep, haff, NodeSelectorOpIn]
  refine ⟨hval, ?_⟩
  intro ops err h op hop
  rw [hval] at h
  injection h with hops _
  subst hops
  simp only [List.mem_cons, List.mem_singleton, List.not_mem_nil, or_false] at hop
  rcases hop with h | h | h | h <;> subst h <;> decide

/-- The instance of C2 with the labels `app = foo` and `tier = web`. -/
theorem affinityFunc_single_replica_no_affinity_witness :
    ∃ ops, affinityFunc
        (sampleEnv (.error "") (.ok (sampleDeployment (some 1) [("app", "foo"), ("tier", "web")])))
        (sampleRequest deployResource "default") = .returned ops none ∧ ops.length = 4 :=
  ⟨_, (affinityFunc_single_replica_no_affinity
      (sampleEnv (.error "") (.ok (sampleDeployment (some 1) [("app", "foo"), ("tier", "web")])))
      (sampleRequest deployResource "default")
      (sampleDeployment (some 1) [("app", "foo"), ("tier", "web")]) rfl rfl rfl rfl).1, rfl⟩

/-! ## The protocol handler: namespace exemption and pass-through -/

/-- C3: for a POST request with content type application/json whose body decodes to a
review with inner request `req` in a reserved namespace (kube-system or kube-public),
`doServeAdmitFunc` builds the allowing envelope whose patch is the encoding of the empty
operation sequence, returns its bytes, and does not call the admit function: the result
is the one obtained with an admit function that always panics.  Nothing is assumed of
the resource, of the object bytes or of the admit function. -/
theorem doServeAdmitFunc_reserved_namespace (env : Env) (w : ResponseWriter) (r : Request)
    (admitFn : admitFunc) (body : Bytes) (review : AdmissionReview) (req : AdmissionRequest)
    (patchBytes out : Bytes)
    (hmethod : r.Method = "POST")
    (hbody : r.Body = .ok body)
    (hct : r.Header.Get "Content-Type" = "application/json")
    (hdec : env.decodeReview body = .ok review)
    (hreq : review.Request = some req)
    (hns : req.Namespace = "kube-system" ∨ req.Namespace = "kube-public")
    (hpatch : env.marshalPatch [] = .ok patchBytes)
    (hout : env.marshalReview
        { Kind := "AdmissionReview", APIVersion := "admission.k8s.io/v1",
          Response := some { UID := req.UID, Allowed := true, Result := none,
                             Patch := some patchBytes, PatchType := some "JSONPatch" } }
      = .ok out) :
    admissionReviewResponse env w r admitFn = some (w, .ok
        { Kind := "AdmissionReview", APIVersion := "admission.k8s.io/v1",
          Response := some { UID := req.UID, Allowed := true, Result := none,
                             Patch := some patchBytes, PatchType := some "JSONPatch" } }) ∧
    doServeAdmitFunc env w r admitFn = some (w, .ok out) ∧
    doServeAdmitFunc env w r admitFn = doServeAdmitFunc env w r (fun _ => .panicked) := by
  have hk : isKubeNamespace req.Namespace = true := by
    rcases hns with h | h <;> simp [isKubeNamespace, h, NamespacePublic, NamespaceSystem]
  have henv : ∀ f : admitFunc, admissionReviewResponse env w r f = some (w, .ok
        { Kind := "AdmissionReview", APIVersion := "admission.k8s.io/v1",
          Response := some { UID := req.UID, Allowed := true, Result := none,
                             Patch := some patchBytes, PatchType := some "JSONPatch" } }) := by
    intro f
    simp [admissionReviewResponse, hmethod, hbody, hct, hdec, hreq, hk, hpatch, MethodPost,
      jsonContentType, PatchTypeJSONPatch]
  have hdo : ∀ f : admitFunc, doServeAdmitFunc env w r f = some (w, .ok out) := by
    intro f
    simp [doServeAdmitFunc, henv f, hout]
  exact ⟨henv admitFn, hdo admitFn, by rw [hdo admitFn, hdo]⟩

/-- The instance of C3 with a deployments request in kube-system. -/
theorem doServeAdmitFunc_reserved_namespace_witness :
    doServeAdmitFunc
      (sampleEnv (.ok (sampleReview (sampleRequest deployResource "kube-system"))) (.error "EOF"))
      {} (sampleHttp "POST" "application/json") (fun _ => .panicked)
      = some ({}, .ok [15]) :=
  (doServeAdmitFunc_reserved_namespace
    (sampleEnv (.ok (sampleReview (sampleRequest deployResource "kube-system"))) (.error "EOF"))
    {} (sampleHttp "POST" "application/json") (fun _ => .panicked) [123, 125]
    (sampleReview (sampleRequest deployResource "kube-system"))
    (sampleRequest deployResource "kube-system") [0] [15]
    rfl rfl rfl rfl rfl (Or.inl rfl) rfl rfl).2.1

/-- C4: when the resource of a request differs from apps/v1 deployments in its group,
version or resource, `affinityFunc` returns the empty operation sequence and no error
whatever the decoder would make of the object bytes, and the handler built on it, for a
POST request with content type application/json whose body decodes to a review with
this inner request, answers status 200 with the allowing envelope whose patch is the
encoding of the empty operation sequence. -/
theorem affinityFunc_other_resource_passes (env : Env) (req : AdmissionRequest)
    (hres : req.Resource.Group ≠ "apps" ∨ req.Resource.Version ≠ "v1" ∨
      req.Resource.Resource ≠ "deployments") :
    (∀ env' : Env, affinityFunc env' req = .returned [] none) ∧
    ∀ (r : Request) (body : Bytes) (review : AdmissionReview) (patchBytes out : Bytes),
      r.Method = "POST" → r.Body = .ok body →
      r.Header.Get "Content-Type" = "application/json" →
      env.decodeReview body = .ok review → review.Request = some req →
      env.marshalPatch [] = .ok patchBytes →
      env.marshalReview
        { Kind := "AdmissionReview", APIVersion := "admission.k8s.io/v1",
          Response := some { UID := req.UID, Allowed := true, Result := none,
                             Patch := some patchBytes, PatchType := some "JSONPatch" } }
        = .ok out →
      admissionReviewResponse env {} r (affinityFunc env) = some ({}, .ok
        { Kind := "AdmissionReview", APIVersion := "admission.k8s.io/v1",
          Response := some { UID := req.UID, Allowed := true, Result := none,
                             Patch := some patchBytes, PatchType := some "JSONPatch" } }) ∧
      serveAdmitFunc env {} r (affinityFunc env) = some { status := some 200, body := out } := by
  have hne : req.Resource ≠ deployResource := by
    intro h
    rw [h] at hres
    simp [deployResource] at hres
  have hpass : ∀ env' : Env, affinityFunc env' req = .returned [] none := by
    intro env'
    simp [affinityFunc, hne]
  refine ⟨hpass, ?_⟩
  intro r body review patchBytes out hmethod hbody hct hdec hreq hpatch hout
  have henv : admissionReviewResponse env {} r (affinityFunc env) = some ({}, .ok
        { Kind := "AdmissionReview", APIVersion := "admission.k8s.io/v1",
          Response := some { UID := req.UID, Allowed := true, Result := none,
                             Patch := some patchBytes, PatchType := some "JSONPatch" } }) := by
    cases hk : isKubeNamespace req.Namespace <;>
      simp [admissionReviewResponse, hmethod, hbody, hct, hdec, hreq, hk, hpatch, hpass env,
        MethodPost, jsonContentType, PatchTypeJSONPatch]
  refine ⟨henv, ?_⟩
  simp [serveAdmitFunc, doServeAdmitFunc, henv, hout, ResponseWriter.Write,
    ResponseWriter.WriteHeader, StatusOK]

/-- The instance of C4 with a core/v1 pods request in the default namespace. -/
theorem affinityFunc_other_resource_passes_witness :
    affinityFunc (sampleEnv (.error "") (.error "EOF"))
      (sampleRequest podsResource "default")
      = .returned [] none ∧
    serveAdmitFunc
      (sampleEnv (.ok (sampleReview (sampleRequest podsResource "default")))
        (.error "EOF"))
      {} (sampleHttp "POST" "application/json")
      (affinityFunc (sampleEnv (.ok (sampleReview (sampleRequest podsResource "default")))
        (.error "EOF")))
      = some { status := some 200, body := [15] } :=
  ⟨(affinityFunc_other_resource_passes (sampleEnv (.error "") (.error "EOF"))
      (sampleRequest podsResource "default")
      (Or.inl (by decide))).1 _,
   ((affinityFunc_other_resource_passes
      (sampleEnv (.ok (sampleReview (sampleRequest podsResource "default")))
        (.error "EOF"))
      (sampleRequest podsResource "default")
      (Or.inl (by decide))).2 (sampleHttp "POST" "application/json") [123, 125]
      (sampleReview (sampleRequest podsResource "default"))
      [0] [15] rfl rfl rfl rfl rfl rfl rfl).2⟩

/-! ## The protocol handler: denial and the echoed UID -/

/-- C5: for a POST request with content type application/json whose body decodes to a
review with inner request `req` outside the reserved namespaces, when the admit function
returns the error `e`, `serveAdmitFunc` answers status 200 with the bytes of the
envelope whose response has the request UID, Allowed false, Result.Message `e`, no Patch
and no PatchType; and when the admit function is `affinityFunc` and the deployment
object fails to decode with `e'`, the message is the decode error text. -/
theorem serveAdmitFunc_admit_error_denies (env : Env) (r : Request) (admitFn : admitFunc)
    (body : Bytes) (review : AdmissionReview) (req : AdmissionRequest)
    (ops : List patchOperation) (e : String) (out : Bytes)
    (hmethod : r.Method = "POST")
    (hbody : r.Body = .ok body)
    (hct : r.Header.Get "Content-Type" = "application/json")
    (hdec : env.decodeReview body = .ok review)
    (hreq : review.Request = some req)
    (hns : req.Namespace ≠ "kube-system" ∧ req.Namespace ≠ "kube-public")
    (hcall : admitFn req = .returned ops (some e))
    (hout : env.marshalReview
        { Kind := "AdmissionReview", APIVersion := "admission.k8s.io/v1",
          Response := some { UID := req.UID, Allowed := false,
                             Result := some { Message := e }, Patch := none,
                             PatchType := none } }
      = .ok out) :
    admissionReviewResponse env {} r admitFn = some ({}, .ok
        { Kind := "AdmissionReview", APIVersion := "admission.k8s.io/v1",
          Response := some { UID := req.UID, Allowed := false,
                             Result := some { Message := e }, Patch := none,
                             PatchType := none } }) ∧
    serveAdmitFunc env {} r admitFn = some { status := some 200, body := out } ∧
    ∀ e', admitFn = affinityFunc env → req.Resource = deployResource →
      env.decodeDeployment req.Object.Raw = .error e' →
      e = "could not deserialize deploy object: " ++ e' := by
  have hk : isKubeNamespace req.Namespace = false := by
    simp [isKubeNamespace, hns.1, hns.2, NamespacePublic, NamespaceSystem]
  have henv : admissionReviewResponse env {} r admitFn = some ({}, .ok
        { Kind := "AdmissionReview", APIVersion := "admission.k8s.io/v1",
          Response := some { UID := req.UID, Allowed := false,
                             Result := some { Message := e }, Patch := none,
                             PatchType := none } }) := by
    simp [admissionReviewResponse, hmethod, hbody, hct, hdec, hreq, hk, hcall, MethodPost,
      jsonContentType]
  refine ⟨henv, ?_, ?_⟩
  · simp [serveAdmitFunc, doServeAdmitFunc, henv, hout, ResponseWriter.Write,
      ResponseWriter.WriteHeader, StatusOK]
  · intro e' hfun hres hfail
    rw [hfun] at hcall
    simp [affinityFunc, hres, hfail] at hcall
    exact hcall.2.symm

/-- The instance of C5 with `affinityFunc` on a deployment object that fails to
decode. -/
theorem serveAdmitFunc_admit_error_denies_witness :
    serveAdmitFunc
      (sampleEnv (.ok (sampleReview (sampleRequest deployResource "default"))) (.error "EOF"))
      {} (sampleHttp "POST" "application/json")
      (affinityFunc
        (sampleEnv (.ok (sampleReview (sampleRequest deployResource "default"))) (.error "EOF")))
      = some { status := some 200, body := [15] } :=
  (serveAdmitFunc_admit_error_denies
    (sampleEnv (.ok (sampleReview (sampleRequest deployResource "default"))) (.error "EOF"))
    (sampleHttp "POST" "application/json")
    (affinityFunc
      (sampleEnv (.ok (sampleReview (sampleRequest deployResource "default"))) (.error "EOF")))
    [123, 125] (sampleReview (sampleRequest deployResource "default"))
    (sampleRequest deployResource "default") [] "could not deserialize deploy object: EOF" [15]
    rfl rfl rfl rfl rfl ⟨by decide, by decide⟩ rfl rfl).2.1

/-- C6: for a POST request with content type application/json whose body decodes to a
review with inner request `req`, every envelope `doServeAdmitFunc` builds or returns the
bytes of has a response whose UID is the UID of `req`; and an envelope is built both on
a deny (the admit function returns an error) and on an allow (the admit function is
skipped or returns no error, and the patch is encoded). -/
theorem doServeAdmitFunc_echoes_uid (env : Env) (w : ResponseWriter) (r : Request)
    (admitFn : admitFunc) (body : Bytes) (review : AdmissionReview) (req : AdmissionRequest)
    (hmethod : r.Method = "POST")
    (hbody : r.Body = .ok body)
    (hct : r.Header.Get "Content-Type" = "application/json")
    (hdec : env.decodeReview body = .ok review)
    (hreq : review.Request = some req) :
    (∀ w' envelope, admissionReviewResponse env w r admitFn = some (w', .ok envelope) →
      ∃ resp, envelope.Response = some resp ∧ resp.UID = req.UID) ∧
    (∀ w' bytes, doServeAdmitFunc env w r admitFn = some (w', .ok bytes) →
      ∃ envelope resp, admissionReviewResponse env w r admitFn = some (w', .ok envelope) ∧
        env.marshalReview envelope = .ok bytes ∧
        envelope.Response = some resp ∧ resp.UID = req.UID) ∧
    (∀ ops e, isKubeNamespace req.Namespace = false → admitFn req = .returned ops (some e) →
      ∃ envelope resp, admissionReviewResponse env w r admitFn = some (w, .ok envelope) ∧
        envelope.Response = some resp ∧ resp.Allowed = false ∧ resp.UID = req.UID) ∧
    (∀ ops patchBytes,
      (isKubeNamespace req.Namespace = true ∧ ops = []) ∨
        (isKubeNamespace req.Namespace = false ∧ admitFn req = .returned ops none) →
      env.marshalPatch ops = .ok patchBytes →
      ∃ envelope resp, admissionReviewResponse env w r admitFn = some (w, .ok envelope) ∧
        envelope.Response = some resp ∧ resp.Allowed = true ∧ resp.UID = req.UID) := by
  have hbuilt : ∀ w' envelope, admissionReviewResponse env w r admitFn = some (w', .ok envelope) →
      ∃ resp, envelope.Response = some resp ∧ resp.UID = req.UID := by
    intro w' envelope h
    simp only [admissionReviewResponse, hmethod, hbody, hct, hdec, hreq, MethodPost,
      jsonContentType, ne_eq, not_true_eq_false, if_false] at h
    split at h
    · exact absurd h (by simp)
    · simp only [Option.some.injEq, Prod.mk.injEq, Except.ok.injEq] at h
      exact ⟨_, by rw [← h.2], rfl⟩
    · split at h
      · simp at h
      · simp only [Option.some.injEq, Prod.mk.injEq, Except.ok.injEq] at h
        exact ⟨_, by rw [← h.2], rfl⟩
  refine ⟨hbuilt, ?_, ?_, ?_⟩
  · intro w' bytes h
    unfold doServeAdmitFunc at h
    split at h
    · simp at h
    · simp at h
    · rename_i w1 envelope heq
      split at h
      · simp at h
      · rename_i bytes1 hm
        simp only [Option.some.injEq, Prod.mk.injEq, Except.ok.injEq] at h
        obtain ⟨hw, hb⟩ := h
        subst hw
        subst hb
        obtain ⟨resp, h1, h2⟩ := hbuilt _ _ heq
        exact ⟨envelope, resp, heq, hm, h1, h2⟩
  · intro ops e hk hcall
    exact ⟨_, _, by
      simp [admissionReviewResponse, hmethod, hbody, hct, hdec, hreq, hk, hcall, MethodPost,
        jsonContentType]; rfl, rfl, rfl, rfl⟩
  · intro ops patchBytes hcase hpatch
    rcases hcase with ⟨hk, hops⟩ | ⟨hk, hcall⟩
    · subst hops
      exact ⟨_, _, by
        simp [admissionReviewResponse, hmethod, hbody, hct, hdec, hreq, hk, hpatch, MethodPost,
          jsonContentType]; rfl, rfl, rfl, rfl⟩
    · exact ⟨_, _, by
        simp [admissionReviewResponse, hmethod, hbody, hct, hdec, hreq, hk, hcall, hpatch,
          MethodPost, jsonContentType]; rfl, rfl, rfl, rfl⟩

/-- The instance of C6 with a deployment object that `affinityFunc` cannot decode: the
deny envelope carries the UID of the request. -/
theorem doServeAdmitFunc_echoes_uid_witness :
    ∃ envelope resp,
      admissionReviewResponse
        (sampleEnv (.ok (sampleReview (sampleRequest deployResource "default"))) (.error "EOF"))
        {} (sampleHttp "POST" "application/json")
        (affinityFunc
          (sampleEnv (.ok (sampleReview (sampleRequest deployResource "default"))) (.error "EOF")))
        = some ({}, .ok envelope) ∧
      envelope.Response = some resp ∧ resp.Allowed = false ∧
      resp.UID = (sampleRequest deployResource "default").UID :=
  (doServeAdmitFunc_echoes_uid
    (sampleEnv (.ok (sampleReview (sampleRequest deployResource "default"))) (.error "EOF"))
    {} (sampleHttp "POST" "application/json")
    (affinityFunc
      (sampleEnv (.ok (sampleReview (sampleRequest deployResource "default"))) (.error "EOF")))
    [123, 125] (sampleReview (sampleRequest deployResource "default"))
    (sampleRequest deployResource "default") rfl rfl rfl rfl rfl).2.2.1
    [] "could not deserialize deploy object: EOF" (by decide) rfl

/-! ## The protocol handler: raw HTTP errors -/

/-- C7: for a request whose method is not POST, `serveAdmitFunc` answers status 405
with the invalid-method text as body, and the response is the same whatever the body,
the headers, the decoders and encoders and the admit function are: none of them is
used. -/
theorem serveAdmitFunc_method_not_allowed (env : Env) (r : Request) (admitFn : admitFunc)
    (hmethod : r.Method ≠ "POST") :
    serveAdmitFunc env {} r admitFn = some
      { status := some 405,
        body := stringBytes ("invalid method " ++ r.Method ++ ", only POST requests are allowed") } ∧
    ∀ (env' : Env) (admitFn' : admitFunc) (header : Header) (body : Except String Bytes),
      serveAdmitFunc env' {} { Method := r.Method, Header := header, Body := body } admitFn'
        = serveAdmitFunc env {} r admitFn := by
  have hgen : ∀ (env' : Env) (admitFn' : admitFunc) (header : Header) (body : Except String Bytes),
      serveAdmitFunc env' {} { Method := r.Method, Header := header, Body := body } admitFn' = some
        { status := some 405,
          body := stringBytes
            ("invalid method " ++ r.Method ++ ", only POST requests are allowed") } := by
    intro env' admitFn' header body
    simp [serveAdmitFunc, doServeAdmitFunc, admissionReviewResponse, hmethod, MethodPost,
      ResponseWriter.Write, ResponseWriter.WriteHeader, StatusMethodNotAllowed]
  have hthis := hgen env admitFn r.Header r.Body
  exact ⟨hthis, fun env' admitFn' header body => by rw [hgen, hthis]⟩

/-- The instance of C7 with a GET request and an admit function that would panic. -/
theorem serveAdmitFunc_method_not_allowed_witness :
    serveAdmitFunc (sampleEnv (.error "") (.error "")) {} (sampleHttp "GET" "application/json")
      (fun _ => .panicked)
      = some { status := some 405,
               body := stringBytes "invalid method GET, only POST requests are allowed" } :=
  (serveAdmitFunc_method_not_allowed (sampleEnv (.error "") (.error "")) (sampleHttp "GET" "application/json")
    (fun _ => .panicked) (by decide)).1

/-- C8: for a POST request whose Content-Type value is not exactly application/json,
`doServeAdmitFunc` returns an error without writing a header, `serveAdmitFunc` answers
status 500 with the error text as body, the text is the unsupported-content-type message
when the body could be read, and the result is the same whatever the decoders, encoders
and admit function are: none of them is reached. -/
theorem serveAdmitFunc_unsupported_content_type (env : Env) (r : Request) (admitFn : admitFunc)
    (hmethod : r.Method = "POST")
    (hct : r.Header.Get "Content-Type" ≠ "application/json") :
    ∃ err : String,
      doServeAdmitFunc env {} r admitFn = some ({}, .error err) ∧
      serveAdmitFunc env {} r admitFn = some { status := some 500, body := stringBytes err } ∧
      (∀ body, r.Body = .ok body →
        err = "unsupported content type " ++ r.Header.Get "Content-Type"
          ++ ", only application/json is supported") ∧
      (∀ e, r.Body = .error e → err = "could not read request body: " ++ e) ∧
      ∀ (env' : Env) (admitFn' : admitFunc),
        doServeAdmitFunc env' {} r admitFn' = some ({}, .error err) ∧
        serveAdmitFunc env' {} r admitFn' = some { status := some 500, body := stringBytes err } := by
  cases hb : r.Body with
  | error e =>
    have hgen : ∀ (env' : Env) (admitFn' : admitFunc),
        doServeAdmitFunc env' {} r admitFn' = some ({}, .error ("could not read request body: " ++ e)) ∧
        serveAdmitFunc env' {} r admitFn' = some
          { status := some 500, body := stringBytes ("could not read request body: " ++ e) } := by
      intro env' admitFn'
      simp [serveAdmitFunc, doServeAdmitFunc, admissionReviewResponse, hmethod, hb, MethodPost,
        ResponseWriter.Write, ResponseWriter.WriteHeader, StatusInternalServerError]
    exact ⟨_, (hgen env admitFn).1, (hgen env admitFn).2, by simp, by simp, hgen⟩
  | ok body =>
    have hgen : ∀ (env' : Env) (admitFn' : admitFunc),
        doServeAdmitFunc env' {} r admitFn' = some ({}, .error
          ("unsupported content type " ++ r.Header.Get "Content-Type"
            ++ ", only application/json is supported")) ∧
        serveAdmitFunc env' {} r admitFn' = some
          { status := some 500,
            body := stringBytes ("unsupported content type " ++ r.Header.Get "Content-Type"
              ++ ", only application/json is supported") } := by
      intro env' admitFn'
      have hct' : r.Header.Get "Content-Type" ≠ jsonContentType := hct
      simp [serveAdmitFunc, doServeAdmitFunc, admissionReviewResponse, hmethod, hb, hct', MethodPost,
        unsupported_text, ResponseWriter.Write, ResponseWriter.WriteHeader,
        StatusInternalServerError]
    exact ⟨_, (hgen env admitFn).1, (hgen env admitFn).2, by simp, by simp, hgen⟩

/-- The instance of C8 with a charset parameter after the media type. -/
theorem serveAdmitFunc_unsupported_content_type_witness :
    ∃ err : String,
      serveAdmitFunc (sampleEnv (.error "") (.error "")) {}
        (sampleHttp "POST" "application/json; charset=utf-8") (fun _ => .panicked)
        = some { status := some 500, body := stringBytes err } :=
  (serveAdmitFunc_unsupported_content_type (sampleEnv (.error "") (.error ""))
    (sampleHttp "POST" "application/json; charset=utf-8") (fun _ => .panicked) rfl (by decide)).imp
    fun _ h => h.2.1

/-- C9: for a POST request with content type application/json whose body was read,
when the body fails to decode as an admission review, or decodes to a review whose inner
request is nil, `doServeAdmitFunc` returns an error before any envelope is built, and
`serveAdmitFunc` answers status 500 with the error text as body, whatever the admit
function and the encoders are: neither is used. -/
theorem serveAdmitFunc_malformed_review (env : Env) (r : Request) (admitFn : admitFunc)
    (body : Bytes)
    (hmethod : r.Method = "POST")
    (hbody : r.Body = .ok body)
    (hct : r.Header.Get "Content-Type" = "application/json")
    (hbad : (∃ e, env.decodeReview body = .error e) ∨
      (∃ review, env.decodeReview body = .ok review ∧ review.Request = none)) :
    ∃ err : String,
      admissionReviewResponse env {} r admitFn = some ({}, .error err) ∧
      serveAdmitFunc env {} r admitFn = some { status := some 500, body := stringBytes err } ∧
      (∀ e, env.decodeReview body = .error e → err = "could not deserialize request: " ++ e) ∧
      (∀ review, env.decodeReview body = .ok review →
        err = "malformed admission review: request is ni") ∧
      ∀ (admitFn' : admitFunc) (marshalPatch : List patchOperation → Except String Bytes)
        (marshalReview : AdmissionReview → Except String Bytes),
        serveAdmitFunc
          { env with marshalPatch := marshalPatch, marshalReview := marshalReview } {} r admitFn'
          = some { status := some 500, body := stringBytes err } := by
  rcases hbad with ⟨e, he⟩ | ⟨review, hrev, hnil⟩
  · refine ⟨"could not deserialize request: " ++ e, ?_, ?_, ?_, ?_, ?_⟩
    · simp [admissionReviewResponse, hmethod, hbody, hct, he, MethodPost, jsonContentType]
    · simp [serveAdmitFunc, doServeAdmitFunc, admissionReviewResponse, hmethod, hbody, hct, he,
        MethodPost, jsonContentType, ResponseWriter.Write, ResponseWriter.WriteHeader,
        StatusInternalServerError]
    · intro e' he'
      rw [he] at he'
      injection he' with h
      rw [h]
    · intro review hrev
      rw [he] at hrev
      cases hrev
    · intro admitFn' mp mr
      simp [serveAdmitFunc, doServeAdmitFunc, admissionReviewResponse, hmethod, hbody, hct, he,
        MethodPost, jsonContentType, ResponseWriter.Write, ResponseWriter.WriteHeader,
        StatusInternalServerError]
  · refine ⟨"malformed admission review: request is ni", ?_, ?_, ?_, ?_, ?_⟩
    · simp [admissionReviewResponse, hmethod, hbody, hct, hrev, hnil, MethodPost, jsonContentType]
    · simp [serveAdmitFunc, doServeAdmitFunc, admissionReviewResponse, hmethod, hbody, hct, hrev,
        hnil, MethodPost, jsonContentType, ResponseWriter.Write, ResponseWriter.WriteHeader,
        StatusInternalServerError]
    · intro e he
      rw [hrev] at he
      cases he
    · intro _ _
      rfl
    · intro admitFn' mp mr
      simp [serveAdmitFunc, doServeAdmitFunc, admissionReviewResponse, hmethod, hbody, hct, hrev,
        hnil, MethodPost, jsonContentType, ResponseWriter.Write, ResponseWriter.WriteHeader,
        StatusInternalServerError]

/-- The instance of C9 with a body the decoder rejects. -/
theorem serveAdmitFunc_malformed_review_witness :
    ∃ err : String,
      serveAdmitFunc (sampleEnv (.error "unexpected end of JSON input") (.error "")) {}
        (sampleHttp "POST" "application/json") (fun _ => .panicked)
        = some { status := some 500, body := stringBytes err } :=
  (serveAdmitFunc_malformed_review (sampleEnv (.error "unexpected end of JSON input") (.error ""))
    (sampleHttp "POST" "application/json") (fun _ => .panicked) [123, 125] rfl rfl rfl
    (Or.inl ⟨_, rfl⟩)).imp fun _ h => h.2.1

/-! ## The protocol handler: patch and patch type -/

/-- C10: in every envelope `doServeAdmitFunc` builds, and so in every envelope whose
bytes it returns, the response has a Patch exactly when Allowed is true and a PatchType
exactly when Allowed is true, the PatchType is then the JSONPatch constant, and on a
deny both are absent. -/
theorem doServeAdmitFunc_patch_type (env : Env) (w w' : ResponseWriter) (r : Request)
    (admitFn : admitFunc) (envelope : AdmissionReview)
    (hbuilt : admissionReviewResponse env w r admitFn = some (w', .ok envelope)) :
    (∃ resp, envelope.Response = some resp ∧
      (resp.Patch ≠ none → resp.PatchType = some "JSONPatch") ∧
      (resp.Allowed = true ↔ resp.Patch ≠ none) ∧
      (resp.Allowed = true ↔ resp.PatchType ≠ none) ∧
      (resp.Allowed = false → resp.Patch = none ∧ resp.PatchType = none)) ∧
    ∀ w'' bytes, doServeAdmitFunc env w r admitFn = some (w'', .ok bytes) →
      w'' = w' ∧ env.marshalReview envelope = .ok bytes := by
  constructor
  · obtain ⟨_, _, _, req, _, _, _, hcase⟩ := envelope_built env w w' r admitFn envelope hbuilt
    rcases hcase with ⟨e, he⟩ | ⟨patchBytes, he⟩
    · exact ⟨_, by rw [he], by simp⟩
    · exact ⟨_, by rw [he], by simp [PatchTypeJSONPatch]⟩
  · intro w'' bytes h
    simp only [doServeAdmitFunc, hbuilt] at h
    split at h
    · simp at h
    · rename_i bytes1 hm
      simp only [Option.some.injEq, Prod.mk.injEq, Except.ok.injEq] at h
      exact ⟨h.1.symm, by rw [hm, h.2]⟩

/-- The instance of C10 with a deployments request that `affinityFunc` denies. -/
theorem doServeAdmitFunc_patch_type_witness :
    ∃ resp : AdmissionResponse,
      some ({ UID := "705ab4f5-6393-11e8-b7cc-42010a800002", Allowed := false,
              Result := some { Message := "could not deserialize deploy object: EOF" } } :
            AdmissionResponse) = some resp ∧
      (resp.Patch ≠ none → resp.PatchType = some "JSONPatch") ∧
      (resp.Allowed = true ↔ resp.Patch ≠ none) ∧
      (resp.Allowed = true ↔ resp.PatchType ≠ none) ∧
      (resp.Allowed = false → resp.Patch = none ∧ resp.PatchType = none) :=
  (doServeAdmitFunc_patch_type
    (sampleEnv (.ok (sampleReview (sampleRequest deployResource "default"))) (.error "EOF"))
    {} {} (sampleHttp "POST" "application/json")
    (affinityFunc
      (sampleEnv (.ok (sampleReview (sampleRequest deployResource "default"))) (.error "EOF")))
    { Kind := "AdmissionReview", APIVersion := "admission.k8s.io/v1",
      Response := some { UID := "705ab4f5-6393-11e8-b7cc-42010a800002", Allowed := false,
                         Result := some { Message := "could not deserialize deploy object: EOF" } } }
    rfl).1

/-! ## The groups of operations -/

/-- Each operation of the node scaffold is the add of a container that is absent. -/
theorem mem_nodeScaffold (d : Deployment) (op : patchOperation) (h : op ∈ nodeScaffold d) :
    (op = { Op := "add", Path := "/spec/template/spec/affinity", Value := .emptyObject } ∧
      containerExists d "/spec/template/spec/affinity" = false) ∨
    (op = { Op := "add", Path := "/spec/template/spec/affinity/nodeAffinity",
            Value := .emptyObject } ∧
      containerExists d "/spec/template/spec/affinity/nodeAffinity" = false) ∨
    (op = { Op := "add",
            Path := "/spec/template/spec/affinity/nodeAffinity/preferredDuringSchedulingIgnoredDuringExecution",
            Value := .emptyArray } ∧
      containerExists d
        "/spec/template/spec/affinity/nodeAffinity/preferredDuringSchedulingIgnoredDuringExecution"
        = false) := by
  simp only [nodeScaffold, List.mem_append] at h
  rcases h with (h | h) | h
  · split at h
    · simp at h
    · rename_i hc
      simp only [List.mem_singleton] at h
      exact Or.inl ⟨h, by simpa using hc⟩
  · split at h
    · simp at h
    · rename_i hc
      simp only [List.mem_singleton] at h
      exact Or.inr (Or.inl ⟨h, by simpa using hc⟩)
  · split at h
    · simp at h
    · rename_i hc
      simp only [List.mem_singleton] at h
      exact Or.inr (Or.inr ⟨h, by simpa using hc⟩)

/-- Each operation of the pod scaffold is the add of a container that is absent. -/
theorem mem_podScaffold (d : Deployment) (op : patchOperation) (h : op ∈ podScaffold d) :
    (op = { Op := "add", Path := "/spec/template/spec/affinity/podAntiAffinity",
            Value := .emptyObject } ∧
      containerExists d "/spec/template/spec/affinity/podAntiAffinity" = false) ∨
    (op = { Op := "add",
            Path := "/spec/template/spec/affinity/podAntiAffinity/preferredDuringSchedulingIgnoredDuringExecution",
            Value := .emptyArray } ∧
      containerExists d
        "/spec/template/spec/affinity/podAntiAffinity/preferredDuringSchedulingIgnoredDuringExecution"
        = false) := by
  simp only [podScaffold, List.mem_append] at h
  rcases h with h | h
  · split at h
    · simp at h
    · rename_i hc
      simp only [List.mem_singleton] at h
      exact Or.inl ⟨h, by simpa using hc⟩
  · split at h
    · simp at h
    · rename_i hc
      simp only [List.mem_singleton] at h
      exact Or.inr ⟨h, by simpa using hc⟩

/-- Each operation of the terms of a label appends to the pod anti-affinity array a
term selecting the label. -/
theorem mem_labelTerms (kv : String × String) (op : patchOperation) (h : op ∈ labelTerms kv) :
    op.Op = "add" ∧
    op.Path = "/spec/template/spec/affinity/podAntiAffinity/preferredDuringSchedulingIgnoredDuringExecution/-" ∧
    ∃ weight topology, op.Value = .podTerm { Weight := weight, PodAffinityTerm := {
      LabelSelector := some { MatchExpressions := [{ Key := kv.1, Operator := "In", Values := [kv.2] }] },
      TopologyKey := topology } } := by
  simp only [labelTerms, List.mem_cons, List.mem_singleton, List.not_mem_nil, or_false] at h
  rcases h with h | h | h <;> subst h <;> exact ⟨rfl, rfl, _, _, rfl⟩

/-- What a call of `affinityFunc` that returns has returned: nothing for another
resource or an object that does not decode, and otherwise the groups of operations of
`affinityFunc_decoded` for the decoded deployment. -/
theorem affinityFunc_returned (env : Env) (req : AdmissionRequest) (ops : List patchOperation)
    (err : Option String) (hret : affinityFunc env req = .returned ops err) :
    ops = [] ∨
    ∃ deploy n, req.Resource = deployResource ∧
      env.decodeDeployment req.Object.Raw = .ok deploy ∧ deploy.Spec.Replicas = some n ∧
      err = none ∧
      ops = nodeScaffold deploy ++
        (if n = 1 then [onDemandTerm]
         else spotTerm :: (podScaffold deploy ++
           (env.rangeLabels deploy.Spec.Template.Labels).flatMap labelTerms)) := by
  by_cases hres : req.Resource = deployResource
  · cases hdec : env.decodeDeployment req.Object.Raw with
    | error e =>
      simp [affinityFunc, hres, hdec] at hret
      exact Or.inl hret.1
    | ok deploy =>
      cases hrep : deploy.Spec.Replicas with
      | none => simp [affinityFunc, hres, hdec, hrep] at hret
      | some n =>
        rw [affinityFunc_decoded env req deploy n hres hdec hrep] at hret
        injection hret with hops herr
        exact Or.inr ⟨deploy, n, hres, rfl, hrep, herr.symm, hops.symm⟩
  · simp [affinityFunc, hres] at hret
    exact Or.inl hret.1

/-- No operation of the node scaffold is an append. -/
theorem filter_nodeScaffold (d : Deployment) : (nodeScaffold d).filter isAppend = [] := by
  rw [List.filter_eq_nil_iff]
  intro op hop
  rcases mem_nodeScaffold d op hop with ⟨h, _⟩ | ⟨h, _⟩ | ⟨h, _⟩ <;> subst h <;> decide

/-- No operation of the pod scaffold is an append. -/
theorem filter_podScaffold (d : Deployment) : (podScaffold d).filter isAppend = [] := by
  rw [List.filter_eq_nil_iff]
  intro op hop
  rcases mem_podScaffold d op hop with ⟨h, _⟩ | ⟨h, _⟩ <;> subst h <;> decide

/-- Every operation of the terms of the labels is an append. -/
theorem filter_labelTerms (visit : List (String × String)) :
    (visit.flatMap labelTerms).filter isAppend = visit.flatMap labelTerms := by
  rw [List.filter_eq_self]
  intro op hop
  obtain ⟨kv, _, hkv⟩ := List.mem_flatMap.mp hop
  have hpath := (mem_labelTerms kv op hkv).2.1
  simp only [isAppend, hpath]
  decide

/-- The appends among the operations returned for a decoded deployment: they depend on
the replica count and the labels visited only. -/
theorem filter_isAppend_groups (d : Deployment) (n : Int) (visit : List (String × String)) :
    (nodeScaffold d ++
        (if n = 1 then [onDemandTerm]
         else spotTerm :: (podScaffold d ++ visit.flatMap labelTerms))).filter isAppend
      = if n = 1 then [onDemandTerm] else spotTerm :: visit.flatMap labelTerms := by
  rw [List.filter_append, filter_nodeScaffold, List.nil_append]
  split
  · rfl
  · rw [List.filter_cons_of_pos (by decide), List.filter_append, filter_podScaffold,
      List.nil_append, filter_labelTerms]

/-- The operations outside the terms of the labels carry no pod anti-affinity term and
do not append to the pod anti-affinity array. -/
theorem not_podTerm_of_mem (d : Deployment) (op : patchOperation)
    (h : op ∈ nodeScaffold d ∨ op = onDemandTerm ∨ op = spotTerm ∨ op ∈ podScaffold d) :
    podTermLabel op = none ∧ podTermValues [op] = [] ∧
    op.Path ≠ "/spec/template/spec/affinity/podAntiAffinity/preferredDuringSchedulingIgnoredDuringExecution/-" := by
  rcases h with h | h | h | h
  · rcases mem_nodeScaffold d op h with ⟨h, _⟩ | ⟨h, _⟩ | ⟨h, _⟩ <;> subst h <;>
      exact ⟨rfl, rfl, by decide⟩
  · subst h
    exact ⟨rfl, rfl, by decide⟩
  · subst h
    exact ⟨rfl, rfl, by decide⟩
  · rcases mem_podScaffold d op h with ⟨h, _⟩ | ⟨h, _⟩ <;> subst h <;>
      exact ⟨rfl, rfl, by decide⟩

/-- Each of the three terms of a label selects that label. -/
theorem podTermLabel_labelTerms (kv : String × String) (op : patchOperation)
    (h : op ∈ labelTerms kv) : podTermLabel op = some kv := by
  simp only [labelTerms, List.mem_cons, List.mem_singleton, List.not_mem_nil, or_false] at h
  rcases h with h | h | h <;> subst h <;> simp [podTermLabel]

/-- The terms of the labels visited number three per label. -/
theorem length_flatMap_labelTerms (visit : List (String × String)) :
    (visit.flatMap labelTerms).length = 3 * visit.length := by
  induction visit with
  | nil => rfl
  | cons kv rest ih =>
    rw [List.flatMap_cons, List.length_append, ih, List.length_cons]
    simp only [labelTerms, List.length_cons, List.length_nil]
    omega

/-- Among the terms of the labels visited, none selects a label that is not visited. -/
theorem filter_label_of_not_mem (visit : List (String × String)) (kv : String × String)
    (h : kv ∉ visit) :
    (visit.flatMap labelTerms).filter (fun op => podTermLabel op = some kv) = [] := by
  rw [List.filter_eq_nil_iff]
  intro op hop
  obtain ⟨kv', hmem, hkv'⟩ := List.mem_flatMap.mp hop
  rw [podTermLabel_labelTerms kv' op hkv']
  intro heq
  simp only [decide_eq_true_eq, Option.some.injEq] at heq
  exact h (heq ▸ hmem)

/-- Among the terms of the labels visited, those selecting a label visited once are the
three terms of that label. -/
theorem filter_label_of_mem (visit : List (String × String)) (kv : String × String)
    (hnodup : visit.Nodup) (h : kv ∈ visit) :
    (visit.flatMap labelTerms).filter (fun op => podTermLabel op = some kv) = labelTerms kv := by
  induction visit with
  | nil => cases h
  | cons kv' rest ih =>
    rw [List.flatMap_cons, List.filter_append]
    rw [List.nodup_cons] at hnodup
    by_cases heq : kv' = kv
    · subst heq
      rw [filter_label_of_not_mem rest kv' hnodup.1, List.append_nil, List.filter_eq_self]
      intro op hop
      simp [podTermLabel_labelTerms kv' op hop]
    · have hrest : kv ∈ rest := by
        rcases List.mem_cons.mp h with h | h
        · exact absurd h.symm heq
        · exact h
      rw [ih hnodup.2 hrest]
      have hnone : (labelTerms kv').filter (fun op => podTermLabel op = some kv) = [] := by
        rw [List.filter_eq_nil_iff]
        intro op hop
        simp [podTermLabel_labelTerms kv' op hop, heq]
      rw [hnone, List.nil_append]

/-- Every operation returned by `affinityFunc` is an add. -/
theorem op_add_of_returned (env : Env) (req : AdmissionRequest) (ops : List patchOperation)
    (err : Option String) (hret : affinityFunc env req = .returned ops err)
    (op : patchOperation) (hop : op ∈ ops) : op.Op = "add" := by
  rcases affinityFunc_returned env req ops err hret with hnil | ⟨deploy, n, _, _, _, _, hops⟩
  · rw [hnil] at hop
    cases hop
  · rw [hops] at hop
    rcases List.mem_append.mp hop with h | h
    · rcases mem_nodeScaffold deploy op h with ⟨h, _⟩ | ⟨h, _⟩ | ⟨h, _⟩ <;> subst h <;> rfl
    · split at h
      · rw [List.mem_singleton.mp h]
        rfl
      · simp only [List.mem_append, List.mem_cons, List.mem_flatMap] at h
        rcases h with h | h | ⟨kv, _, h⟩
        · rw [h]
          rfl
        · rcases mem_podScaffold deploy op h with ⟨h, _⟩ | ⟨h, _⟩ <;> subst h <;> rfl
        · exact (mem_labelTerms kv op h).1

/-! ## The namespace filter -/

/-- C15: `isKubeNamespace` returns true exactly for kube-system and kube-public; it
returns false for every other name, the empty string and default among them. -/
theorem isKubeNamespace_iff (name : String) :
    (isKubeNamespace name = true ↔ name = "kube-system" ∨ name = "kube-public") ∧
    (isKubeNamespace name = false ↔ name ≠ "kube-system" ∧ name ≠ "kube-public") ∧
    isKubeNamespace "" = false ∧ isKubeNamespace "default" = false := by
  refine ⟨?_, ?_, by decide, by decide⟩
  · simp only [isKubeNamespace, NamespacePublic, NamespaceSystem, Bool.or_eq_true, beq_iff_eq]
    exact Or.comm
  · simp only [isKubeNamespace, NamespacePublic, NamespaceSystem, Bool.or_eq_false_iff,
      beq_eq_false_iff_ne, ne_eq]
    exact And.comm

/-! ## The decision function on an arbitrary decoded deployment -/

/-- C16: on a deployments request whose object decodes to a deployment with one
replica, whatever its labels and affinity, `affinityFunc` returns no error and a sequence
that ends with the weight-10 on-demand node term; this is its only append, no operation
has a path at or below podAntiAffinity, and none carries the spot term. -/
theorem affinityFunc_single_replica_exempt (env : Env) (req : AdmissionRequest)
    (deploy : Deployment)
    (hres : req.Resource = deployResource)
    (hdec : env.decodeDeployment req.Object.Raw = .ok deploy)
    (hrep : deploy.Spec.Replicas = some 1) :
    ∃ scaffold : List patchOperation,
      affinityFunc env req = .returned (scaffold ++ [
        { Op := "add",
          Path := "/spec/template/spec/affinity/nodeAffinity/preferredDuringSchedulingIgnoredDuringExecution/-",
          Value := .nodeTerm { Weight := 10, Preference := { MatchExpressions := [
            { Key := "node.kubernetes.io/capacity", Operator := "In", Values := ["on-demand"] }] } } }])
        none ∧
      (∀ op ∈ scaffold, isAppend op = false ∧
        pathUnder "/spec/template/spec/affinity/podAntiAffinity" op.Path = false ∧
        (op.Value = .emptyObject ∨ op.Value = .emptyArray)) ∧
      isAppend
        { Op := "add",
          Path := "/spec/template/spec/affinity/nodeAffinity/preferredDuringSchedulingIgnoredDuringExecution/-",
          Value := .nodeTerm { Weight := 10, Preference := { MatchExpressions := [
            { Key := "node.kubernetes.io/capacity", Operator := "In", Values := ["on-demand"] }] } } }
        = true ∧
      pathUnder "/spec/template/spec/affinity/podAntiAffinity"
        "/spec/template/spec/affinity/nodeAffinity/preferredDuringSchedulingIgnoredDuringExecution/-"
        = false := by
  refine ⟨nodeScaffold deploy, ?_, ?_, by decide, by decide⟩
  · rw [affinityFunc_decoded env req deploy 1 hres hdec hrep]
    simp [onDemandTerm]
  · intro op hop
    rcases mem_nodeScaffold deploy op hop with ⟨h, _⟩ | ⟨h, _⟩ | ⟨h, _⟩ <;> subst h <;>
      exact ⟨by decide, by decide, by simp⟩

/-- The instance of C16 with one replica, two labels and an affinity that already has
a pod anti-affinity. -/
theorem affinityFunc_single_replica_exempt_witness :
    ∃ scaffold : List patchOperation,
      affinityFunc
        (sampleEnv (.error "") (.ok { Spec := { Replicas := some 1, Template := {
          Labels := [("app", "foo"), ("tier", "web")],
          Spec := { Affinity := some { PodAntiAffinity := some {} } } } } }))
        (sampleRequest deployResource "default")
        = .returned (scaffold ++ [
          { Op := "add",
            Path := "/spec/template/spec/affinity/nodeAffinity/preferredDuringSchedulingIgnoredDuringExecution/-",
            Value := .nodeTerm { Weight := 10, Preference := { MatchExpressions := [
              { Key := "node.kubernetes.io/capacity", Operator := "In", Values := ["on-demand"] }] } } }])
          none :=
  (affinityFunc_single_replica_exempt
    (sampleEnv (.error "") (.ok { Spec := { Replicas := some 1, Template := {
      Labels := [("app", "foo"), ("tier", "web")],
      Spec := { Affinity := some { PodAntiAffinity := some {} } } } } }))
    (sampleRequest deployResource "default")
    { Spec := { Replicas := some 1, Template := {
      Labels := [("app", "foo"), ("tier", "web")],
      Spec := { Affinity := some { PodAntiAffinity := some {} } } } } }
    rfl rfl rfl).imp fun _ h => h.1

/-- C11: on a deployments request whose object decodes to a deployment with a replica
count other than 1, `affinityFunc` returns no error, and each of the five scaffold adds
(affinity, nodeAffinity, node preferred array, podAntiAffinity, anti-affinity preferred
array) is among the operations exactly when its container is absent in the decoded
object, no other operation having its path; so with affinity and nodeAffinity present
no operation has either path.  The appends are the spot term and then the terms of the
labels, whatever is present. -/
theorem affinityFunc_scaffold_iff_absent (env : Env) (req : AdmissionRequest)
    (deploy : Deployment) (n : Int)
    (hres : req.Resource = deployResource)
    (hdec : env.decodeDeployment req.Object.Raw = .ok deploy)
    (hrep : deploy.Spec.Replicas = some n) (hn : n ≠ 1) :
    ∃ ops : List patchOperation, affinityFunc env req = .returned ops none ∧
      ((∃ op ∈ ops, op.Path = "/spec/template/spec/affinity") ↔
        deploy.Spec.Template.Spec.Affinity = none) ∧
      ((∃ op ∈ ops, op.Path = "/spec/template/spec/affinity/nodeAffinity") ↔
        nodeAffinityOf deploy = none) ∧
      ((∃ op ∈ ops, op.Path =
          "/spec/template/spec/affinity/nodeAffinity/preferredDuringSchedulingIgnoredDuringExecution") ↔
        nodePreferredOf deploy = none) ∧
      ((∃ op ∈ ops, op.Path = "/spec/template/spec/affinity/podAntiAffinity") ↔
        podAntiAffinityOf deploy = none) ∧
      ((∃ op ∈ ops, op.Path =
          "/spec/template/spec/affinity/podAntiAffinity/preferredDuringSchedulingIgnoredDuringExecution") ↔
        podPreferredOf deploy = none) ∧
      (∀ op ∈ ops, isAppend op = false →
        op.Op = "add" ∧ (op.Value = .emptyObject ∨ op.Value = .emptyArray)) ∧
      (deploy.Spec.Template.Spec.Affinity ≠ none → nodeAffinityOf deploy ≠ none →
        ∀ op ∈ ops, op.Path ≠ "/spec/template/spec/affinity" ∧
          op.Path ≠ "/spec/template/spec/affinity/nodeAffinity") ∧
      ops.filter isAppend =
        { Op := "add",
          Path := "/spec/template/spec/affinity/nodeAffinity/preferredDuringSchedulingIgnoredDuringExecution/-",
          Value := .nodeTerm { Weight := 20, Preference := { MatchExpressions := [
            { Key := "node.kubernetes.io/capacity", Operator := "In", Values := ["spot"] }] } } }
        :: (env.rangeLabels deploy.Spec.Template.Labels).flatMap labelTerms := by
  have hops := affinityFunc_decoded env req deploy n hres hdec hrep
  simp only [hn, if_false] at hops
  have hfilter := filter_isAppend_groups deploy n (env.rangeLabels deploy.Spec.Template.Labels)
  simp only [hn, if_false] at hfilter
  have hmem : ∀ op, op ∈ nodeScaffold deploy ++ spotTerm :: (podScaffold deploy ++
      (env.rangeLabels deploy.Spec.Template.Labels).flatMap labelTerms) →
      op ∈ nodeScaffold deploy ∨ op = spotTerm ∨ op ∈ podScaffold deploy ∨
        ∃ kv, op ∈ labelTerms kv := by
    intro op hop
    simp only [List.mem_append, List.mem_cons, List.mem_flatMap] at hop
    rcases hop with h | h | h | ⟨kv, _, h⟩
    · exact Or.inl h
    · exact Or.inr (Or.inl h)
    · exact Or.inr (Or.inr (Or.inl h))
    · exact Or.inr (Or.inr (Or.inr ⟨kv, h⟩))
  have hpath : ∀ op, op ∈ nodeScaffold deploy ++ spotTerm :: (podScaffold deploy ++
      (env.rangeLabels deploy.Spec.Template.Labels).flatMap labelTerms) → ∀ p : String,
      op.Path = p → isAppend { Op := "add", Path := p, Value := .emptyObject } = false →
      containerExists deploy p = false ∧ op.Op = "add" ∧
        (op.Value = .emptyObject ∨ op.Value = .emptyArray) := by
    intro op hop p hp hnot
    subst hp
    rcases hmem op hop with h | h | h | ⟨kv, h⟩
    · rcases mem_nodeScaffold deploy op h with ⟨h, hc⟩ | ⟨h, hc⟩ | ⟨h, hc⟩ <;> subst h <;>
        exact ⟨hc, rfl, by simp⟩
    · subst h
      exact absurd hnot (by decide)
    · rcases mem_podScaffold deploy op h with ⟨h, hc⟩ | ⟨h, hc⟩ <;> subst h <;>
        exact ⟨hc, rfl, by simp⟩
    · have hq := (mem_labelTerms kv op h).2.1
      simp only [isAppend, hq] at hnot
      exact absurd hnot (by decide)
  have hnode : ∀ op ∈ nodeScaffold deploy, op ∈ nodeScaffold deploy ++ spotTerm ::
      (podScaffold deploy ++ (env.rangeLabels deploy.Spec.Template.Labels).flatMap labelTerms) :=
    fun op h => List.mem_append_left _ h
  have hpod : ∀ op ∈ podScaffold deploy, op ∈ nodeScaffold deploy ++ spotTerm ::
      (podScaffold deploy ++ (env.rangeLabels deploy.Spec.Template.Labels).flatMap labelTerms) :=
    fun op h => List.mem_append_right _ (List.mem_cons_of_mem _ (List.mem_append_left _ h))
  have h1 : (∃ op ∈ nodeScaffold deploy ++ spotTerm :: (podScaffold deploy ++
      (env.rangeLabels deploy.Spec.Template.Labels).flatMap labelTerms),
      op.Path = "/spec/template/spec/affinity") ↔ deploy.Spec.Template.Spec.Affinity = none := by
    constructor
    · rintro ⟨op, hop, hp⟩
      have := (hpath op hop _ hp (by decide)).1
      simpa [containerExists] using this
    · intro habs
      refine ⟨{ Op := "add", Path := "/spec/template/spec/affinity", Value := .emptyObject },
        hnode _ ?_, rfl⟩
      simp [nodeScaffold, containerExists, habs]
  have h2 : (∃ op ∈ nodeScaffold deploy ++ spotTerm :: (podScaffold deploy ++
      (env.rangeLabels deploy.Spec.Template.Labels).flatMap labelTerms),
      op.Path = "/spec/template/spec/affinity/nodeAffinity") ↔ nodeAffinityOf deploy = none := by
    constructor
    · rintro ⟨op, hop, hp⟩
      have := (hpath op hop _ hp (by decide)).1
      simpa [containerExists] using this
    · intro habs
      refine ⟨{ Op := "add", Path := "/spec/template/spec/affinity/nodeAffinity",
                Value := .emptyObject }, hnode _ ?_, rfl⟩
      simp [nodeScaffold, containerExists, habs]
  have h3 : (∃ op ∈ nodeScaffold deploy ++ spotTerm :: (podScaffold deploy ++
      (env.rangeLabels deploy.Spec.Template.Labels).flatMap labelTerms),
      op.Path =
        "/spec/template/spec/affinity/nodeAffinity/preferredDuringSchedulingIgnoredDuringExecution") ↔
      nodePreferredOf deploy = none := by
    constructor
    · rintro ⟨op, hop, hp⟩
      have := (hpath op hop _ hp (by decide)).1
      simpa [containerExists] using this
    · intro habs
      refine ⟨{ Op := "add",
                Path := "/spec/template/spec/affinity/nodeAffinity/preferredDuringSchedulingIgnoredDuringExecution",
                Value := .emptyArray }, hnode _ ?_, rfl⟩
      simp [nodeScaffold, containerExists, habs]
  have h4 : (∃ op ∈ nodeScaffold deploy ++ spotTerm :: (podScaffold deploy ++
      (env.rangeLabels deploy.Spec.Template.Labels).flatMap labelTerms),
      op.Path = "/spec/template/spec/affinity/podAntiAffinity") ↔
      podAntiAffinityOf deploy = none := by
    constructor
    · rintro ⟨op, hop, hp⟩
      have := (hpath op hop _ hp (by decide)).1
      simpa [containerExists] using this
    · intro habs
      refine ⟨{ Op := "add", Path := "/spec/template/spec/affinity/podAntiAffinity",
                Value := .emptyObject }, hpod _ ?_, rfl⟩
      simp [podScaffold, containerExists, habs]
  have h5 : (∃ op ∈ nodeScaffold deploy ++ spotTerm :: (podScaffold deploy ++
      (env.rangeLabels deploy.Spec.Template.Labels).flatMap labelTerms),
      op.Path =
        "/spec/template/spec/affinity/podAntiAffinity/preferredDuringSchedulingIgnoredDuringExecution") ↔
      podPreferredOf deploy = none := by
    constructor
    · rintro ⟨op, hop, hp⟩
      have := (hpath op hop _ hp (by decide)).1
      simpa [containerExists] using this
    · intro habs
      refine ⟨{ Op := "add",
                Path := "/spec/template/spec/affinity/podAntiAffinity/preferredDuringSchedulingIgnoredDuringExecution",
                Value := .emptyArray }, hpod _ ?_, rfl⟩
      simp [podScaffold, containerExists, habs]
  refine ⟨_, hops, h1, h2, h3, h4, h5, ?_, ?_, ?_⟩
  · intro op hop hnot
    have hnot' : isAppend { Op := "add", Path := op.Path, Value := .emptyObject } = false := hnot
    exact (hpath op hop op.Path rfl hnot').2
  · intro ha hna op hop
    exact ⟨fun hp => ha (h1.mp ⟨op, hop, hp⟩), fun hp => hna (h2.mp ⟨op, hop, hp⟩)⟩
  · rw [hfilter]
    rfl

/-- The instance of C11 with three replicas and an affinity whose node affinity is
present and empty. -/
theorem affinityFunc_scaffold_iff_absent_witness :
    ∃ ops : List patchOperation,
      affinityFunc
        (sampleEnv (.error "") (.ok { Spec := { Replicas := some 3, Template := {
          Labels := [("app", "foo")],
          Spec := { Affinity := some { NodeAffinity := some {} } } } } }))
        (sampleRequest deployResource "default") = .returned ops none ∧
      ∀ op ∈ ops, op.Path ≠ "/spec/template/spec/affinity" ∧
        op.Path ≠ "/spec/template/spec/affinity/nodeAffinity" :=
  (affinityFunc_scaffold_iff_absent
    (sampleEnv (.error "") (.ok { Spec := { Replicas := some 3, Template := {
      Labels := [("app", "foo")],
      Spec := { Affinity := some { NodeAffinity := some {} } } } } }))
    (sampleRequest deployResource "default")
    { Spec := { Replicas := some 3, Template := {
      Labels := [("app", "foo")],
      Spec := { Affinity := some { NodeAffinity := some {} } } } } }
    3 rfl rfl rfl (by decide)).imp fun _ h =>
      ⟨h.1, h.2.2.2.2.2.2.2.1 (by decide) (by decide)⟩

/-- C19: every operation `affinityFunc` returns has op add and a path at or below
/spec/template/spec/affinity, and an operation whose path does not end in the append
marker is returned only when the container at its path is absent in the decoded
object. -/
theorem affinityFunc_adds_absent_only (env : Env) (req : AdmissionRequest)
    (ops : List patchOperation) (err : Option String)
    (hret : affinityFunc env req = .returned ops err) :
    ∀ op ∈ ops, op.Op = "add" ∧ pathUnder "/spec/template/spec/affinity" op.Path = true ∧
      (isAppend op = false → ∃ deploy, env.decodeDeployment req.Object.Raw = .ok deploy ∧
        containerExists deploy op.Path = false) := by
  intro op hop
  rcases affinityFunc_returned env req ops err hret with hnil | ⟨deploy, n, _, hdec, _, _, hops⟩
  · rw [hnil] at hop
    cases hop
  · rw [hops] at hop
    have hcases : op ∈ nodeScaffold deploy ∨ op = onDemandTerm ∨ op = spotTerm ∨
        op ∈ podScaffold deploy ∨ ∃ kv, op ∈ labelTerms kv := by
      rcases List.mem_append.mp hop with h | h
      · exact Or.inl h
      · split at h
        · exact Or.inr (Or.inl (List.mem_singleton.mp h))
        · simp only [List.mem_append, List.mem_cons, List.mem_flatMap] at h
          rcases h with h | h | ⟨kv, _, h⟩
          · exact Or.inr (Or.inr (Or.inl h))
          · exact Or.inr (Or.inr (Or.inr (Or.inl h)))
          · exact Or.inr (Or.inr (Or.inr (Or.inr ⟨kv, h⟩)))
    rcases hcases with h | h | h | h | ⟨kv, h⟩
    · rcases mem_nodeScaffold deploy op h with ⟨h, hc⟩ | ⟨h, hc⟩ | ⟨h, hc⟩ <;> subst h <;>
        exact ⟨rfl, by decide, fun _ => ⟨deploy, hdec, hc⟩⟩
    · subst h
      exact ⟨rfl, by decide, fun h => absurd h (by decide)⟩
    · subst h
      exact ⟨rfl, by decide, fun h => absurd h (by decide)⟩
    · rcases mem_podScaffold deploy op h with ⟨h, hc⟩ | ⟨h, hc⟩ <;> subst h <;>
        exact ⟨rfl, by decide, fun _ => ⟨deploy, hdec, hc⟩⟩
    · obtain ⟨hadd, hq, _⟩ := mem_labelTerms kv op h
      refine ⟨hadd, ?_, ?_⟩
      · rw [hq]
        decide
      · intro hnot
        simp only [isAppend, hq] at hnot
        exact absurd hnot (by decide)

/-- The instance of C19 with three replicas and an affinity whose node affinity is
present and empty: the add of the preferred node terms array, which is not an append,
names an array that is absent in the decoded deployment. -/
theorem affinityFunc_adds_absent_only_witness :
    pathUnder "/spec/template/spec/affinity"
      "/spec/template/spec/affinity/nodeAffinity/preferredDuringSchedulingIgnoredDuringExecution"
      = true ∧
    ∃ deploy,
      (sampleEnv (.error "") (.ok { Spec := { Replicas := some 3, Template := {
        Spec := { Affinity := some { NodeAffinity := some {},
                                     PodAntiAffinity := some {
          PreferredDuringSchedulingIgnoredDuringExecution := some [] } } } } } })).decodeDeployment
        (sampleRequest deployResource "default").Object.Raw = .ok deploy ∧
      containerExists deploy
        "/spec/template/spec/affinity/nodeAffinity/preferredDuringSchedulingIgnoredDuringExecution"
        = false :=
  have h := affinityFunc_adds_absent_only
    (sampleEnv (.error "") (.ok { Spec := { Replicas := some 3, Template := {
      Spec := { Affinity := some { NodeAffinity := some {},
                                   PodAntiAffinity := some {
        PreferredDuringSchedulingIgnoredDuringExecution := some [] } } } } } }))
    (sampleRequest deployResource "default")
    [{ Op := "add",
       Path := "/spec/template/spec/affinity/nodeAffinity/preferredDuringSchedulingIgnoredDuringExecution",
       Value := .emptyArray }, spotTerm] none rfl
    { Op := "add",
      Path := "/spec/template/spec/affinity/nodeAffinity/preferredDuringSchedulingIgnoredDuringExecution",
      Value := .emptyArray } (List.mem_cons_self _ _)
  ⟨h.2.1, h.2.2 (by decide)⟩

/-! ## The nil replica pointer -/

/-- When the decoded deployment has no replica count, the dereference of the nil
pointer makes `affinityFunc` panic. -/
theorem affinityFunc_nil_replicas (env : Env) (req : AdmissionRequest) (deploy : Deployment)
    (hres : req.Resource = deployResource)
    (hdec : env.decodeDeployment req.Object.Raw = .ok deploy)
    (hrep : deploy.Spec.Replicas = none) :
    affinityFunc env req = .panicked := by
  unfold affinityFunc
  simp only [hres, ne_eq, not_true_eq_false, if_false, hdec, hrep]

/-- C18, at the failing input: for a deployments request in the default namespace whose
object decodes to a deployment without spec.replicas, `affinityFunc` neither returns
operations nor an error, it panics, and `serveAdmitFunc` writes no response. -/
theorem affinityFunc_nil_replicas_panics :
    affinityFunc
      (sampleEnv (.ok (sampleReview (sampleRequest deployResource "default")))
        (.ok (sampleDeployment none [("app", "foo")])))
      (sampleRequest deployResource "default") = .panicked ∧
    (∀ ops err, affinityFunc
      (sampleEnv (.ok (sampleReview (sampleRequest deployResource "default")))
        (.ok (sampleDeployment none [("app", "foo")])))
      (sampleRequest deployResource "default") ≠ .returned ops err) ∧
    serveAdmitFunc
      (sampleEnv (.ok (sampleReview (sampleRequest deployResource "default")))
        (.ok (sampleDeployment none [("app", "foo")])))
      {} (sampleHttp "POST" "application/json")
      (affinityFunc
        (sampleEnv (.ok (sampleReview (sampleRequest deployResource "default")))
          (.ok (sampleDeployment none [("app", "foo")]))))
      = none := by
  have hp := affinityFunc_nil_replicas
    (sampleEnv (.ok (sampleReview (sampleRequest deployResource "default")))
      (.ok (sampleDeployment none [("app", "foo")])))
    (sampleRequest deployResource "default") (sampleDeployment none [("app", "foo")]) rfl rfl rfl
  refine ⟨hp, ?_, ?_⟩
  · intro ops err h
    rw [hp] at h
    cases h
  · rfl

/-! ## The terms of the labels -/

/-- C14: on a deployments request whose object decodes to a deployment with a replica
count other than 1, for every pair (key, value) of the pod-template labels `affinityFunc`
returns three consecutive operations appending the pod anti-affinity terms weight 30 /
zone, weight 20 / instance-type, weight 10 / hostname, each selecting `key In [value]`;
they are all the operations selecting this pair; the appends to the pod anti-affinity
array number three times the labels, and each selects a pair of the labels.  The map
range visits each entry once and the keys of a map are distinct. -/
theorem affinityFunc_three_terms_per_label (env : Env) (req : AdmissionRequest)
    (deploy : Deployment) (n : Int)
    (hres : req.Resource = deployResource)
    (hdec : env.decodeDeployment req.Object.Raw = .ok deploy)
    (hrep : deploy.Spec.Replicas = some n) (hn : n ≠ 1)
    (hrange : (env.rangeLabels deploy.Spec.Template.Labels).Perm deploy.Spec.Template.Labels)
    (hkeys : (deploy.Spec.Template.Labels.map Prod.fst).Nodup) :
    ∃ ops : List patchOperation, affinityFunc env req = .returned ops none ∧
      (∀ key value, (key, value) ∈ deploy.Spec.Template.Labels →
        [ ({ Op := "add",
             Path := "/spec/template/spec/affinity/podAntiAffinity/preferredDuringSchedulingIgnoredDuringExecution/-",
             Value := .podTerm { Weight := 30, PodAffinityTerm := {
               LabelSelector := some { MatchExpressions := [{ Key := key, Operator := "In", Values := [value] }] },
               TopologyKey := "topology.kubernetes.io/zone" } } } : patchOperation),
          { Op := "add",
            Path := "/spec/template/spec/affinity/podAntiAffinity/preferredDuringSchedulingIgnoredDuringExecution/-",
            Value := .podTerm { Weight := 20, PodAffinityTerm := {
              LabelSelector := some { MatchExpressions := [{ Key := key, Operator := "In", Values := [value] }] },
              TopologyKey := "beta.kubernetes.io/instance-type" } } },
          { Op := "add",
            Path := "/spec/template/spec/affinity/podAntiAffinity/preferredDuringSchedulingIgnoredDuringExecution/-",
            Value := .podTerm { Weight := 10, PodAffinityTerm := {
              LabelSelector := some { MatchExpressions := [{ Key := key, Operator := "In", Values := [value] }] },
              TopologyKey := "kubernetes.io/hostname" } } } ] <:+: ops ∧
        ops.filter (fun op => podTermLabel op = some (key, value)) =
        [ { Op := "add",
            Path := "/spec/template/spec/affinity/podAntiAffinity/preferredDuringSchedulingIgnoredDuringExecution/-",
            Value := .podTerm { Weight := 30, PodAffinityTerm := {
              LabelSelector := some { MatchExpressions := [{ Key := key, Operator := "In", Values := [value] }] },
              TopologyKey := "topology.kubernetes.io/zone" } } },
          { Op := "add",
            Path := "/spec/template/spec/affinity/podAntiAffinity/preferredDuringSchedulingIgnoredDuringExecution/-",
            Value := .podTerm { Weight := 20, PodAffinityTerm := {
              LabelSelector := some { MatchExpressions := [{ Key := key, Operator := "In", Values := [value] }] },
              TopologyKey := "beta.kubernetes.io/instance-type" } } },
          { Op := "add",
            Path := "/spec/template/spec/affinity/podAntiAffinity/preferredDuringSchedulingIgnoredDuringExecution/-",
            Value := .podTerm { Weight := 10, PodAffinityTerm := {
              LabelSelector := some { MatchExpressions := [{ Key := key, Operator := "In", Values := [value] }] },
              TopologyKey := "kubernetes.io/hostname" } } } ]) ∧
      (ops.filter (fun op => op.Path =
        "/spec/template/spec/affinity/podAntiAffinity/preferredDuringSchedulingIgnoredDuringExecution/-")).length
        = 3 * deploy.Spec.Template.Labels.length ∧
      (∀ op ∈ ops, op.Path =
        "/spec/template/spec/affinity/podAntiAffinity/preferredDuringSchedulingIgnoredDuringExecution/-" →
        ∃ kv ∈ deploy.Spec.Template.Labels, podTermLabel op = some kv) := by
  have hops := affinityFunc_decoded env req deploy n hres hdec hrep
  simp only [hn, if_false] at hops
  have hnodup : (env.rangeLabels deploy.Spec.Template.Labels).Nodup :=
    hrange.nodup_iff.mpr (List.Nodup.of_map _ hkeys)
  have hhead : ∀ (p : patchOperation → Bool),
      (∀ op, op ∈ nodeScaffold deploy ∨ op = onDemandTerm ∨ op = spotTerm ∨
        op ∈ podScaffold deploy → p op = false) →
      (nodeScaffold deploy ++ spotTerm :: (podScaffold deploy ++
        (env.rangeLabels deploy.Spec.Template.Labels).flatMap labelTerms)).filter p
        = ((env.rangeLabels deploy.Spec.Template.Labels).flatMap labelTerms).filter p := by
    intro p hp
    have h1 : (nodeScaffold deploy).filter p = [] :=
      List.filter_eq_nil_iff.mpr fun op hop => by simp [hp op (Or.inl hop)]
    have h2 : (podScaffold deploy).filter p = [] :=
      List.filter_eq_nil_iff.mpr fun op hop => by simp [hp op (Or.inr (Or.inr (Or.inr hop)))]
    have h3 : p spotTerm = false := hp _ (Or.inr (Or.inr (Or.inl rfl)))
    rw [List.filter_append, h1, List.nil_append, List.filter_cons, h3, List.filter_append, h2,
      List.nil_append]
    rfl
  refine ⟨_, hops, ?_, ?_, ?_⟩
  · intro key value hmem
    have hvisit : (key, value) ∈ env.rangeLabels deploy.Spec.Template.Labels :=
      hrange.mem_iff.mpr hmem
    constructor
    · obtain ⟨l1, l2, hsplit⟩ := List.append_of_mem hvisit
      refine ⟨nodeScaffold deploy ++ spotTerm :: (podScaffold deploy ++ l1.flatMap labelTerms),
        l2.flatMap labelTerms, ?_⟩
      rw [hsplit]
      simp [List.flatMap_append, labelTerms]
    · rw [hhead _ (fun op hop => by simp [(not_podTerm_of_mem deploy op hop).1]),
        filter_label_of_mem _ _ hnodup hvisit]
      rfl
  · rw [hhead _ (fun op hop => by simp [(not_podTerm_of_mem deploy op hop).2.2]),
      List.filter_eq_self.mpr, length_flatMap_labelTerms, hrange.length_eq]
    intro op hop
    obtain ⟨kv, _, hkv⟩ := List.mem_flatMap.mp hop
    simp [(mem_labelTerms kv op hkv).2.1]
  · intro op hop hpath
    simp only [List.mem_append, List.mem_cons, List.mem_flatMap] at hop
    rcases hop with h | h | h | ⟨kv, hkv, h⟩
    · exact absurd hpath (not_podTerm_of_mem deploy op (Or.inl h)).2.2
    · exact absurd hpath (not_podTerm_of_mem deploy op (Or.inr (Or.inr (Or.inl h)))).2.2
    · exact absurd hpath (not_podTerm_of_mem deploy op (Or.inr (Or.inr (Or.inr h)))).2.2
    · exact ⟨kv, hrange.mem_iff.mp hkv, podTermLabel_labelTerms kv op h⟩

/-- The instance of C14 with three replicas and the labels `app = foo` and
`tier = web`: six appends to the pod anti-affinity array. -/
theorem affinityFunc_three_terms_per_label_witness :
    ∃ ops : List patchOperation,
      affinityFunc
        (sampleEnv (.error "") (.ok (sampleDeployment (some 3) [("app", "foo"), ("tier", "web")])))
        (sampleRequest deployResource "default") = .returned ops none ∧
      (ops.filter (fun op => op.Path =
        "/spec/template/spec/affinity/podAntiAffinity/preferredDuringSchedulingIgnoredDuringExecution/-")).length
        = 3 * 2 :=
  (affinityFunc_three_terms_per_label
    (sampleEnv (.error "") (.ok (sampleDeployment (some 3) [("app", "foo"), ("tier", "web")])))
    (sampleRequest deployResource "default")
    (sampleDeployment (some 3) [("app", "foo"), ("tier", "web")]) 3 rfl rfl rfl (by decide)
    (List.Perm.refl _) (by decide)).imp fun _ h => ⟨h.1, h.2.2.1⟩

/-! ## The order of the labels -/

/-- C13, as amended: on a deployments request whose object decodes to a deployment with a
replica count other than 1, the operations before the terms of the labels depend on the
decoded deployment only, and the terms follow grouped by label, three per label, in the
order in which the map range visits the labels; two invocations return the same
sequence when the range visits the labels in the same order, and sequences that are
permutations of one another when each range is a permutation of the labels. -/
theorem affinityFunc_terms_follow_range (env : Env) (req : AdmissionRequest)
    (deploy : Deployment) (n : Int)
    (hres : req.Resource = deployResource)
    (hdec : env.decodeDeployment req.Object.Raw = .ok deploy)
    (hrep : deploy.Spec.Replicas = some n) (hn : n ≠ 1) :
    ∃ before : List patchOperation,
      (∀ op ∈ before, podTermLabel op = none) ∧
      affinityFunc env req = .returned
        (before ++ (env.rangeLabels deploy.Spec.Template.Labels).flatMap labelTerms) none ∧
      ∀ env' : Env, env'.decodeDeployment req.Object.Raw = .ok deploy →
        affinityFunc env' req = .returned
          (before ++ (env'.rangeLabels deploy.Spec.Template.Labels).flatMap labelTerms) none ∧
        (env'.rangeLabels deploy.Spec.Template.Labels = env.rangeLabels deploy.Spec.Template.Labels →
          affinityFunc env' req = affinityFunc env req) ∧
        ((env.rangeLabels deploy.Spec.Template.Labels).Perm deploy.Spec.Template.Labels →
          (env'.rangeLabels deploy.Spec.Template.Labels).Perm deploy.Spec.Template.Labels →
          (before ++ (env'.rangeLabels deploy.Spec.Template.Labels).flatMap labelTerms).Perm
            (before ++ (env.rangeLabels deploy.Spec.Template.Labels).flatMap labelTerms)) := by
  have hform : ∀ e : Env, e.decodeDeployment req.Object.Raw = .ok deploy →
      affinityFunc e req = .returned
        ((nodeScaffold deploy ++ spotTerm :: podScaffold deploy) ++
          (e.rangeLabels deploy.Spec.Template.Labels).flatMap labelTerms) none := by
    intro e he
    rw [affinityFunc_decoded e req deploy n hres he hrep]
    simp [hn]
  refine ⟨nodeScaffold deploy ++ spotTerm :: podScaffold deploy, ?_, hform env hdec, ?_⟩
  · intro op hop
    simp only [List.mem_append, List.mem_cons] at hop
    rcases hop with h | h | h
    · exact (not_podTerm_of_mem deploy op (Or.inl h)).1
    · exact (not_podTerm_of_mem deploy op (Or.inr (Or.inr (Or.inl h)))).1
    · exact (not_podTerm_of_mem deploy op (Or.inr (Or.inr (Or.inr h)))).1
  · intro env' hdec'
    refine ⟨hform env' hdec', ?_, ?_⟩
    · intro hsame
      rw [hform env' hdec', hform env hdec, hsame]
    · intro hperm hperm'
      exact List.Perm.append_left _ ((hperm'.trans hperm.symm).flatMap_right labelTerms)

/-- The instance of C13 as amended with the labels `app = foo` and `tier = web` visited
in this order. -/
theorem affinityFunc_terms_follow_range_witness :
    ∃ before : List patchOperation,
      affinityFunc
        (sampleEnv (.error "") (.ok (sampleDeployment (some 3) [("app", "foo"), ("tier", "web")])))
        (sampleRequest deployResource "default")
        = .returned (before ++ labelTerms ("app", "foo") ++ labelTerms ("tier", "web")) none :=
  (affinityFunc_terms_follow_range
    (sampleEnv (.error "") (.ok (sampleDeployment (some 3) [("app", "foo"), ("tier", "web")])))
    (sampleRequest deployResource "default")
    (sampleDeployment (some 3) [("app", "foo"), ("tier", "web")]) 3 rfl rfl rfl (by decide)).imp
    fun _ h => by
      have h2 := h.2.1
      simpa [sampleEnv, sampleDeployment, List.flatMap] using h2

/-- C13, the counterexample: for three replicas and the labels `app = foo` and
`tier = web`, a map range that visits `tier` first is a permutation of the entries, as
the range in the given order is; with it `affinityFunc` returns the terms of `tier`
before those of `app`, though `app` is the smaller key, and the two invocations on the
same request return different operation sequences. -/
theorem affinityFunc_label_order_not_fixed :
    (∀ m, ((reversedRange (sampleEnv (.error "")
      (.ok (sampleDeployment (some 3) [("app", "foo"), ("tier", "web")])))).rangeLabels m).Perm m) ∧
    (∀ m, ((sampleEnv (.error "")
      (.ok (sampleDeployment (some 3) [("app", "foo"), ("tier", "web")]))).rangeLabels m).Perm m) ∧
    (∃ ops, affinityFunc
        (reversedRange (sampleEnv (.error "")
          (.ok (sampleDeployment (some 3) [("app", "foo"), ("tier", "web")]))))
        (sampleRequest deployResource "default") = .returned ops none ∧
      ops.filterMap podTermLabel =
        [("tier", "web"), ("tier", "web"), ("tier", "web"),
         ("app", "foo"), ("app", "foo"), ("app", "foo")]) ∧
    "app" < "tier" ∧
    affinityFunc
        (reversedRange (sampleEnv (.error "")
          (.ok (sampleDeployment (some 3) [("app", "foo"), ("tier", "web")]))))
        (sampleRequest deployResource "default")
      ≠ affinityFunc
        (sampleEnv (.error "") (.ok (sampleDeployment (some 3) [("app", "foo"), ("tier", "web")])))
        (sampleRequest deployResource "default") := by
  refine ⟨fun m => List.reverse_perm m, fun m => List.Perm.refl m, ⟨_, rfl, rfl⟩, ?_, by decide⟩
  rw [String.lt_iff_toList_lt]
  decide

/-! ## Replaying the returned operations -/

/-- A patch in two parts is replayed part after part. -/
theorem applyPatch_append (d : Deployment) (ops₁ ops₂ : List patchOperation) :
    applyPatch d (ops₁ ++ ops₂) = (applyPatch d ops₁).bind (fun d' => applyPatch d' ops₂) := by
  induction ops₁ generalizing d with
  | nil => rfl
  | cons op rest ih =>
    simp only [List.cons_append, applyPatch]
    cases applyOp d op with
    | none => rfl
    | some d' => exact ih d'

/-- Appends of pod anti-affinity terms, replayed on a deployment whose pod anti-affinity
array is present, extend the array by their terms and change nothing else. -/
theorem applyPatch_podTerms (ops : List patchOperation)
    (replicas : Option Int) (labels : List (String × String)) (na : Option NodeAffinity)
    (required : Option (List PodAffinityTerm)) (terms : List WeightedPodAffinityTerm)
    (hall : ∀ op ∈ ops, op.Op = "add" ∧
      op.Path = "/spec/template/spec/affinity/podAntiAffinity/preferredDuringSchedulingIgnoredDuringExecution/-" ∧
      ∃ t, op.Value = .podTerm t) :
    applyPatch
      { Spec := { Replicas := replicas, Template := { Labels := labels, Spec := { Affinity := some {
          NodeAffinity := na,
          PodAntiAffinity := some {
            RequiredDuringSchedulingIgnoredDuringExecution := required,
            PreferredDuringSchedulingIgnoredDuringExecution := some terms } } } } } }
      ops
    = some
      { Spec := { Replicas := replicas, Template := { Labels := labels, Spec := { Affinity := some {
          NodeAffinity := na,
          PodAntiAffinity := some {
            RequiredDuringSchedulingIgnoredDuringExecution := required,
            PreferredDuringSchedulingIgnoredDuringExecution :=
              some (terms ++ podTermValues ops) } } } } } } := by
  induction ops generalizing terms with
  | nil => simp [applyPatch, podTermValues]
  | cons op rest ih =>
    obtain ⟨hadd, hpath, t, hval⟩ := hall op (List.mem_cons_self _ _)
    have hrest := ih (terms ++ [t]) (fun o ho => hall o (List.mem_cons_of_mem _ ho))
    obtain ⟨o, q, v⟩ := op
    simp only at hadd hpath hval
    subst hadd hpath hval
    simp [applyPatch, applyOp, setAffinity, hrest, podTermValues, List.filterMap_cons]

/-- The terms of the labels are appends of pod anti-affinity terms. -/
theorem labelTerms_are_podTerms (visit : List (String × String)) :
    ∀ op ∈ visit.flatMap labelTerms, op.Op = "add" ∧
      op.Path = "/spec/template/spec/affinity/podAntiAffinity/preferredDuringSchedulingIgnoredDuringExecution/-" ∧
      ∃ t, op.Value = .podTerm t := by
  intro op hop
  obtain ⟨kv, _, hkv⟩ := List.mem_flatMap.mp hop
  obtain ⟨h1, h2, w, t, h3⟩ := mem_labelTerms kv op hkv
  exact ⟨h1, h2, _, h3⟩

/-- The terms of the labels carry no node term. -/
theorem nodeTermValues_labelTerms (visit : List (String × String)) :
    nodeTermValues (visit.flatMap labelTerms) = [] := by
  unfold nodeTermValues
  rw [List.filterMap_eq_nil_iff]
  intro op hop
  obtain ⟨_, _, t, ht⟩ := labelTerms_are_podTerms visit op hop
  simp [ht]

/-- Replaying the operations returned for a decoded deployment succeeds: the replica
count and the labels are unchanged, the node term is appended to the preferred node
terms (created when absent), and for more than one replica the terms of the labels are
appended to the preferred pod anti-affinity terms (created when absent). -/
theorem applyPatch_groups (d : Deployment) (n : Int) (visit : List (String × String)) :
    ∃ d', applyPatch d (nodeScaffold d ++
        (if n = 1 then [onDemandTerm]
         else spotTerm :: (podScaffold d ++ visit.flatMap labelTerms))) = some d' ∧
      d'.Spec.Replicas = d.Spec.Replicas ∧
      d'.Spec.Template.Labels = d.Spec.Template.Labels ∧
      nodePreferredOf d' = some ((nodePreferredOf d).getD [] ++
        nodeTermValues [if n = 1 then onDemandTerm else spotTerm]) ∧
      (n = 1 → podAntiAffinityOf d' = podAntiAffinityOf d) ∧
      (n ≠ 1 → podPreferredOf d' = some ((podPreferredOf d).getD [] ++
        podTermValues (visit.flatMap labelTerms))) := by
  have hpod := fun r l na required terms =>
    applyPatch_podTerms (visit.flatMap labelTerms) r l na required terms
      (labelTerms_are_podTerms visit)
  obtain ⟨⟨replicas, ⟨labels, ⟨aff⟩⟩⟩⟩ := d
  by_cases hn : n = 1
  · rcases aff with _ | ⟨_ | ⟨_ | l⟩, pa⟩ <;>
      simp [hn, nodeScaffold, containerExists, nodeAffinityOf, nodePreferredOf,
        podAntiAffinityOf, applyPatch, applyOp, setAffinity, onDemandTerm, nodeTermValues]
  · rcases aff with _ | ⟨_ | ⟨_ | l⟩, _ | ⟨required, _ | terms⟩⟩ <;>
      simp [hn, nodeScaffold, podScaffold, containerExists, nodeAffinityOf, nodePreferredOf,
        podAntiAffinityOf, podPreferredOf, applyPatch, applyOp, setAffinity, spotTerm,
        nodeTermValues, hpod]

/-! ## Parents before children -/

/-- The parents of the seven paths of the operations. -/
theorem parentPath_paths :
    parentPath "/spec/template/spec/affinity" = "/spec/template/spec" ∧
    parentPath "/spec/template/spec/affinity/nodeAffinity" = "/spec/template/spec/affinity" ∧
    parentPath "/spec/template/spec/affinity/nodeAffinity/preferredDuringSchedulingIgnoredDuringExecution"
      = "/spec/template/spec/affinity/nodeAffinity" ∧
    parentPath "/spec/template/spec/affinity/nodeAffinity/preferredDuringSchedulingIgnoredDuringExecution/-"
      = "/spec/template/spec/affinity/nodeAffinity/preferredDuringSchedulingIgnoredDuringExecution" ∧
    parentPath "/spec/template/spec/affinity/podAntiAffinity" = "/spec/template/spec/affinity" ∧
    parentPath "/spec/template/spec/affinity/podAntiAffinity/preferredDuringSchedulingIgnoredDuringExecution"
      = "/spec/template/spec/affinity/podAntiAffinity" ∧
    parentPath "/spec/template/spec/affinity/podAntiAffinity/preferredDuringSchedulingIgnoredDuringExecution/-"
      = "/spec/template/spec/affinity/podAntiAffinity/preferredDuringSchedulingIgnoredDuringExecution" := by
  decide

/-- The pod spec is present in every decoded deployment. -/
theorem containerExists_podSpec (d : Deployment) :
    containerExists d "/spec/template/spec" = true := by
  simp [containerExists]

/-- When `parentsPresent` holds, each operation finds its parent among the containers
present at the start or as the path of an operation at an earlier position. -/
theorem parentsPresent_sound (ops : List patchOperation) (present : String → Bool)
    (h : parentsPresent present ops = true) (i : Nat) (op : patchOperation)
    (hop : ops[i]? = some op) :
    present (parentPath op.Path) = true ∨
      ∃ j op', j < i ∧ ops[j]? = some op' ∧ op'.Path = parentPath op.Path := by
  induction ops generalizing present i with
  | nil => simp at hop
  | cons first rest ih =>
    simp only [parentsPresent, Bool.and_eq_true] at h
    cases i with
    | zero =>
      simp only [List.getElem?_cons_zero, Option.some.injEq] at hop
      subst hop
      exact Or.inl h.1
    | succ k =>
      simp only [List.getElem?_cons_succ] at hop
      rcases ih _ h.2 k hop with hp | ⟨j, op', hj, hget, hpath⟩
      · simp only [Bool.or_eq_true, beq_iff_eq] at hp
        rcases hp with hp | hp
        · exact Or.inl hp
        · exact Or.inr ⟨0, first, Nat.succ_pos k, List.getElem?_cons_zero, hp.symm⟩
      · exact Or.inr ⟨j + 1, op', Nat.succ_lt_succ hj, by simpa using hget, hpath⟩

/-- The check on a patch in two parts: the second part may rely on the paths of the
first. -/
theorem parentsPresent_append (a b : List patchOperation) (present : String → Bool) :
    parentsPresent present (a ++ b) =
      (parentsPresent present a &&
        parentsPresent (fun p => present p || a.any (fun op => p == op.Path)) b) := by
  induction a generalizing present with
  | nil => simp [parentsPresent]
  | cons first rest ih =>
    rw [List.cons_append]
    simp only [parentsPresent]
    rw [ih]
    simp only [List.any_cons, Bool.and_assoc, Bool.or_assoc]

/-- Appends to an array that is present find their parent. -/
theorem parentsPresent_appends (ops : List patchOperation) (present : String → Bool)
    (array : String)
    (hall : ∀ op ∈ ops, parentPath op.Path = array) (harray : present array = true) :
    parentsPresent present ops = true := by
  induction ops generalizing present with
  | nil => rfl
  | cons first rest ih =>
    simp only [parentsPresent, Bool.and_eq_true]
    refine ⟨by rw [hall first (List.mem_cons_self _ _)]; exact harray, ?_⟩
    refine ih _ (fun op hop => hall op (List.mem_cons_of_mem _ hop)) ?_
    simp [harray]

/-- The operations returned for a decoded deployment find their parents in the decoded
deployment or among the operations before them. -/
theorem parentsPresent_groups (d : Deployment) (n : Int) (visit : List (String × String)) :
    parentsPresent (containerExists d) (nodeScaffold d ++
        (if n = 1 then [onDemandTerm]
         else spotTerm :: (podScaffold d ++ visit.flatMap labelTerms))) = true := by
  obtain ⟨p1, p2, p3, p4, p5, p6, p7⟩ := parentPath_paths
  have hroot := containerExists_podSpec d
  by_cases hn : n = 1
  · simp only [hn, if_true, nodeScaffold]
    cases h1 : containerExists d "/spec/template/spec/affinity" <;>
    cases h2 : containerExists d "/spec/template/spec/affinity/nodeAffinity" <;>
    cases h3 : containerExists d
      "/spec/template/spec/affinity/nodeAffinity/preferredDuringSchedulingIgnoredDuringExecution" <;>
    simp [parentsPresent, onDemandTerm, p1, p2, p3, p4, hroot, h1, h2, h3]
  · simp only [hn, if_false]
    have hsplit : nodeScaffold d ++ spotTerm :: (podScaffold d ++ visit.flatMap labelTerms)
        = (nodeScaffold d ++ spotTerm :: podScaffold d) ++ visit.flatMap labelTerms := by
      simp
    rw [hsplit, parentsPresent_append, Bool.and_eq_true]
    constructor
    · simp only [nodeScaffold, podScaffold]
      cases h1 : containerExists d "/spec/template/spec/affinity" <;>
      cases h2 : containerExists d "/spec/template/spec/affinity/nodeAffinity" <;>
      cases h3 : containerExists d
        "/spec/template/spec/affinity/nodeAffinity/preferredDuringSchedulingIgnoredDuringExecution" <;>
      cases h4 : containerExists d "/spec/template/spec/affinity/podAntiAffinity" <;>
      cases h5 : containerExists d
        "/spec/template/spec/affinity/podAntiAffinity/preferredDuringSchedulingIgnoredDuringExecution" <;>
      simp [parentsPresent, spotTerm, p1, p2, p3, p4, p5, p6, hroot, h1, h2, h3, h4, h5]
    · refine parentsPresent_appends _ _
        "/spec/template/spec/affinity/podAntiAffinity/preferredDuringSchedulingIgnoredDuringExecution"
        ?_ ?_
      · intro op hop
        rw [(labelTerms_are_podTerms visit op hop).2.1, p7]
      · cases h5 : containerExists d
          "/spec/template/spec/affinity/podAntiAffinity/preferredDuringSchedulingIgnoredDuringExecution"
        · simp [podScaffold, h5, List.any_append]
        · simp

/-- C17: in every operation sequence `affinityFunc` returns, the parent of the path of
the operation at position i is a container present in the decoded deployment or the
path of an operation at a position before i, and replaying the operations in order on
the decoded deployment succeeds.  The sequence is empty when the resource is not
deployments or the object does not decode. -/
theorem affinityFunc_scaffold_before_append (env : Env) (req : AdmissionRequest)
    (ops : List patchOperation) (err : Option String)
    (hret : affinityFunc env req = .returned ops err) :
    ops = [] ∨ ∃ deploy, env.decodeDeployment req.Object.Raw = .ok deploy ∧
      (∀ (i : Nat) (op : patchOperation), ops[i]? = some op →
        containerExists deploy (parentPath op.Path) = true ∨
        ∃ (j : Nat) (op' : patchOperation), j < i ∧ ops[j]? = some op' ∧ op'.Op = "add" ∧
          op'.Path = parentPath op.Path) ∧
      ∃ deploy', applyPatch deploy ops = some deploy' := by
  rcases affinityFunc_returned env req ops err hret with hnil | ⟨deploy, n, _, hdec, _, _, hops⟩
  · exact Or.inl hnil
  · refine Or.inr ⟨deploy, hdec, ?_, ?_⟩
    · intro i op hop
      have hcheck := parentsPresent_groups deploy n (env.rangeLabels deploy.Spec.Template.Labels)
      rw [← hops] at hcheck
      rcases parentsPresent_sound ops _ hcheck i op hop with h | ⟨j, op', hj, hget, hpath⟩
      · exact Or.inl h
      · refine Or.inr ⟨j, op', hj, hget, ?_, hpath⟩
        exact op_add_of_returned env req ops err hret op' (List.getElem?_mem hget)
    · obtain ⟨deploy', happly, _⟩ :=
        applyPatch_groups deploy n (env.rangeLabels deploy.Spec.Template.Labels)
      exact ⟨deploy', by rw [hops]; exact happly⟩

/-- The instance of C17 with one replica and no affinity: the four operations replay on
the decoded deployment. -/
theorem affinityFunc_scaffold_before_append_witness :
    (nodeScaffold (sampleDeployment (some 1) []) ++ [onDemandTerm]) = [] ∨
    ∃ deploy, (sampleEnv (.error "") (.ok (sampleDeployment (some 1) []))).decodeDeployment
        (sampleRequest deployResource "default").Object.Raw = .ok deploy ∧
      (∀ (i : Nat) (op : patchOperation),
        (nodeScaffold (sampleDeployment (some 1) []) ++ [onDemandTerm])[i]? = some op →
        containerExists deploy (parentPath op.Path) = true ∨
        ∃ (j : Nat) (op' : patchOperation), j < i ∧
          (nodeScaffold (sampleDeployment (some 1) []) ++ [onDemandTerm])[j]? = some op' ∧
          op'.Op = "add" ∧ op'.Path = parentPath op.Path) ∧
      ∃ deploy', applyPatch deploy (nodeScaffold (sampleDeployment (some 1) []) ++ [onDemandTerm])
        = some deploy' :=
  affinityFunc_scaffold_before_append
    (sampleEnv (.error "") (.ok (sampleDeployment (some 1) [])))
    (sampleRequest deployResource "default")
    (nodeScaffold (sampleDeployment (some 1) []) ++ [onDemandTerm]) none rfl

/-! ## Invoking the decision function again -/

/-- The node terms among the operations returned for a decoded deployment. -/
theorem nodeTermValues_groups (d : Deployment) (n : Int) (visit : List (String × String)) :
    nodeTermValues (nodeScaffold d ++
        (if n = 1 then [onDemandTerm]
         else spotTerm :: (podScaffold d ++ visit.flatMap labelTerms)))
      = nodeTermValues [if n = 1 then onDemandTerm else spotTerm] := by
  have h1 : nodeTermValues (nodeScaffold d) = [] := by
    unfold nodeTermValues
    rw [List.filterMap_eq_nil_iff]
    intro op hop
    rcases mem_nodeScaffold d op hop with ⟨h, _⟩ | ⟨h, _⟩ | ⟨h, _⟩ <;> subst h <;> rfl
  have h2 : nodeTermValues (podScaffold d) = [] := by
    unfold nodeTermValues
    rw [List.filterMap_eq_nil_iff]
    intro op hop
    rcases mem_podScaffold d op hop with ⟨h, _⟩ | ⟨h, _⟩ <;> subst h <;> rfl
  have h3 := nodeTermValues_labelTerms visit
  unfold nodeTermValues at h1 h2 h3 ⊢
  by_cases hn : n = 1
  · simp only [hn, if_true, List.filterMap_append, h1, List.nil_append]
  · simp only [hn, if_false, List.filterMap_append, List.filterMap_cons, h1, h2, h3,
      List.nil_append, List.append_nil, spotTerm, List.filterMap_nil]

/-- The pod anti-affinity terms among the operations returned for a decoded
deployment. -/
theorem podTermValues_groups (d : Deployment) (n : Int) (visit : List (String × String)) :
    podTermValues (nodeScaffold d ++
        (if n = 1 then [onDemandTerm]
         else spotTerm :: (podScaffold d ++ visit.flatMap labelTerms)))
      = if n = 1 then [] else podTermValues (visit.flatMap labelTerms) := by
  have h1 : podTermValues (nodeScaffold d) = [] := by
    unfold podTermValues
    rw [List.filterMap_eq_nil_iff]
    intro op hop
    rcases mem_nodeScaffold d op hop with ⟨h, _⟩ | ⟨h, _⟩ | ⟨h, _⟩ <;> subst h <;> rfl
  have h2 : podTermValues (podScaffold d) = [] := by
    unfold podTermValues
    rw [List.filterMap_eq_nil_iff]
    intro op hop
    rcases mem_podScaffold d op hop with ⟨h, _⟩ | ⟨h, _⟩ <;> subst h <;> rfl
  unfold podTermValues at h1 h2 ⊢
  by_cases hn : n = 1
  · simp only [hn, if_true, List.filterMap_append, h1, List.nil_append, onDemandTerm,
      List.filterMap_cons, List.filterMap_nil]
  · simp only [hn, if_false, List.filterMap_append, List.filterMap_cons, h1, h2,
      List.nil_append, spotTerm]

/-- When the preferred node terms are present, so are the containers above them, and
the node scaffold is empty. -/
theorem nodeScaffold_of_preferred (d : Deployment) (l : List PreferredSchedulingTerm)
    (h : nodePreferredOf d = some l) : nodeScaffold d = [] := by
  obtain ⟨⟨replicas, ⟨labels, ⟨aff⟩⟩⟩⟩ := d
  rcases aff with _ | ⟨_ | ⟨_ | l'⟩, pa⟩
  all_goals first
    | (simp [nodePreferredOf, nodeAffinityOf] at h; done)
    | simp [nodeScaffold, containerExists, nodeAffinityOf, nodePreferredOf]

/-- When the preferred pod anti-affinity terms are present, so is the container above
them, and the pod scaffold is empty. -/
theorem podScaffold_of_preferred (d : Deployment) (l : List WeightedPodAffinityTerm)
    (h : podPreferredOf d = some l) : podScaffold d = [] := by
  obtain ⟨⟨replicas, ⟨labels, ⟨aff⟩⟩⟩⟩ := d
  rcases aff with _ | ⟨na, _ | ⟨required, _ | l'⟩⟩
  all_goals first
    | (simp [podPreferredOf, podAntiAffinityOf] at h; done)
    | simp [podScaffold, containerExists, podAntiAffinityOf, podPreferredOf]

/-- C12, as amended: when `affinityFunc` accepts a deployment `d` and `d'` is `d` with the
returned operations replayed, a second invocation on `d'` returns appends only, no
scaffold add: the same appends as the first in the same order when the map range visits
the labels in the same order, and a permutation of them when the range visits the
labels in another order.  Replaying them on `d'` appends a second copy of the node
term and, for more than one replica, of the terms of the labels.  The appends of an
invocation depend on the replica count, the labels and the order of the range only, not
on the affinity already present. -/
theorem affinityFunc_reinvoked_appends_again (env : Env) (req : AdmissionRequest)
    (deploy : Deployment) (ops : List patchOperation)
    (hres : req.Resource = deployResource)
    (hdec : env.decodeDeployment req.Object.Raw = .ok deploy)
    (hret : affinityFunc env req = .returned ops none) :
    (∃ deploy', applyPatch deploy ops = some deploy' ∧
      nodePreferredOf deploy' = some ((nodePreferredOf deploy).getD [] ++ nodeTermValues ops) ∧
      (deploy.Spec.Replicas ≠ some 1 →
        podPreferredOf deploy' = some ((podPreferredOf deploy).getD [] ++ podTermValues ops)) ∧
      ∀ (env' : Env) (req' : AdmissionRequest), req'.Resource = deployResource →
        env'.decodeDeployment req'.Object.Raw = .ok deploy' →
        ∃ ops', affinityFunc env' req' = .returned ops' none ∧
          (∀ op ∈ ops', isAppend op = true) ∧
          (env'.rangeLabels deploy.Spec.Template.Labels = env.rangeLabels deploy.Spec.Template.Labels →
            ops' = ops.filter isAppend) ∧
          ((env'.rangeLabels deploy.Spec.Template.Labels).Perm
              (env.rangeLabels deploy.Spec.Template.Labels) →
            ops'.Perm (ops.filter isAppend)) ∧
          nodeTermValues ops' = nodeTermValues ops ∧
          ∃ deploy'', applyPatch deploy' ops' = some deploy'' ∧
            nodePreferredOf deploy'' = some ((nodePreferredOf deploy).getD [] ++
              nodeTermValues ops ++ nodeTermValues ops') ∧
            (deploy.Spec.Replicas ≠ some 1 →
              podPreferredOf deploy'' = some ((podPreferredOf deploy).getD [] ++
                podTermValues ops ++ podTermValues ops'))) ∧
    ∀ (env₂ : Env) (req₂ : AdmissionRequest) (deploy₂ : Deployment),
      req₂.Resource = deployResource →
      env₂.decodeDeployment req₂.Object.Raw = .ok deploy₂ →
      deploy₂.Spec.Replicas = deploy.Spec.Replicas →
      env₂.rangeLabels deploy₂.Spec.Template.Labels = env.rangeLabels deploy.Spec.Template.Labels →
      ∃ ops₂, affinityFunc env₂ req₂ = .returned ops₂ none ∧
        ops₂.filter isAppend = ops.filter isAppend := by
  rcases affinityFunc_returned env req ops none hret with hnil | ⟨d0, n, _, hdec0, hrep, _, hops⟩
  · exfalso
    cases hrep : deploy.Spec.Replicas with
    | none =>
      rw [affinityFunc_nil_replicas env req deploy hres hdec hrep] at hret
      cases hret
    | some n =>
      rw [affinityFunc_decoded env req deploy n hres hdec hrep] at hret
      injection hret with h1 _
      rw [hnil] at h1
      have hlen := congrArg List.length h1
      by_cases hn : n = 1 <;> simp [hn] at hlen
  · have hd : d0 = deploy := by
      rw [hdec] at hdec0
      injection hdec0 with h
      exact h.symm
    subst hd
    have hfilter := filter_isAppend_groups d0 n (env.rangeLabels d0.Spec.Template.Labels)
    rw [← hops] at hfilter
    have hnode := nodeTermValues_groups d0 n (env.rangeLabels d0.Spec.Template.Labels)
    rw [← hops] at hnode
    have hpodv := podTermValues_groups d0 n (env.rangeLabels d0.Spec.Template.Labels)
    rw [← hops] at hpodv
    have hne : d0.Spec.Replicas ≠ some 1 → n ≠ 1 := by
      intro h hn
      exact h (by rw [hrep, hn])
    constructor
    · obtain ⟨d1, happly, hrep1, hlab1, hnp1, _, hpp1⟩ :=
        applyPatch_groups d0 n (env.rangeLabels d0.Spec.Template.Labels)
      rw [← hops] at happly
      refine ⟨d1, happly, by rw [hnp1, hnode], ?_, ?_⟩
      · intro h
        rw [hpp1 (hne h), hpodv, if_neg (hne h)]
      · intro env' req' hres' hdec'
        have hrep1' : d1.Spec.Replicas = some n := by rw [hrep1, hrep]
        have hret' := affinityFunc_decoded env' req' d1 n hres' hdec' hrep1'
        have hns : nodeScaffold d1 = [] := nodeScaffold_of_preferred d1 _ hnp1
        have hfilter' := filter_isAppend_groups d1 n (env'.rangeLabels d1.Spec.Template.Labels)
        have hnode' := nodeTermValues_groups d1 n (env'.rangeLabels d1.Spec.Template.Labels)
        have hpodv' := podTermValues_groups d1 n (env'.rangeLabels d1.Spec.Template.Labels)
        obtain ⟨d2, happly2, _, _, hnp2, _, hpp2⟩ :=
          applyPatch_groups d1 n (env'.rangeLabels d1.Spec.Template.Labels)
        have hself : nodeScaffold d1 ++
            (if n = 1 then [onDemandTerm]
             else spotTerm :: (podScaffold d1 ++
               (env'.rangeLabels d1.Spec.Template.Labels).flatMap labelTerms))
            = if n = 1 then [onDemandTerm]
              else spotTerm :: (env'.rangeLabels d1.Spec.Template.Labels).flatMap labelTerms := by
          rw [hns, List.nil_append]
          by_cases hn : n = 1
          · simp only [hn, if_true]
          · simp only [hn, if_false]
            rw [podScaffold_of_preferred d1 _ (hpp1 hn), List.nil_append]
        rw [hself] at hret' hfilter' hnode' hpodv' happly2
        rw [hlab1] at hret' hfilter' hnode' hpodv' happly2 hpp2
        refine ⟨_, hret', ?_, ?_, ?_, ?_, d2, happly2, ?_, ?_⟩
        · exact List.filter_eq_self.mp hfilter'
        · intro hsame
          rw [hfilter, hsame]
        · intro hperm
          rw [hfilter]
          by_cases hn : n = 1
          · simp only [hn, if_true]
            exact List.Perm.refl _
          · simp only [hn, if_false]
            exact List.Perm.cons _ (hperm.flatMap_right labelTerms)
        · rw [hnode', hnode]
        · rw [hnp2, hnp1, hnode', hnode]
          simp
        · intro h
          rw [hpp2 (hne h), hpp1 (hne h), hpodv', hpodv]
          simp [hne h]
    · intro env₂ req₂ deploy₂ hres₂ hdec₂ hrep₂ hrange₂
      have hret₂ := affinityFunc_decoded env₂ req₂ deploy₂ n hres₂ hdec₂ (by rw [hrep₂, hrep])
      refine ⟨_, hret₂, ?_⟩
      rw [filter_isAppend_groups, hfilter, hrange₂]

/-- The instance of C12 as amended with three replicas, the label `app = foo` and no
affinity: the nine operations replay, leaving the spot term in the node array. -/
theorem affinityFunc_reinvoked_appends_again_witness :
    ∃ deploy',
      applyPatch (sampleDeployment (some 3) [("app", "foo")])
        (nodeScaffold (sampleDeployment (some 3) [("app", "foo")]) ++ spotTerm ::
          (podScaffold (sampleDeployment (some 3) [("app", "foo")]) ++ labelTerms ("app", "foo")))
        = some deploy' ∧
      nodePreferredOf deploy' = some ((nodePreferredOf (sampleDeployment (some 3) [("app", "foo")])).getD []
        ++ nodeTermValues
          (nodeScaffold (sampleDeployment (some 3) [("app", "foo")]) ++ spotTerm ::
            (podScaffold (sampleDeployment (some 3) [("app", "foo")]) ++ labelTerms ("app", "foo")))) :=
  (affinityFunc_reinvoked_appends_again
    (sampleEnv (.error "") (.ok (sampleDeployment (some 3) [("app", "foo")])))
    (sampleRequest deployResource "default") (sampleDeployment (some 3) [("app", "foo")])
    (nodeScaffold (sampleDeployment (some 3) [("app", "foo")]) ++ spotTerm ::
      (podScaffold (sampleDeployment (some 3) [("app", "foo")]) ++ labelTerms ("app", "foo")))
    rfl rfl rfl).1.imp fun _ h => ⟨h.1, h.2.1⟩

/-- C12, the counterexample: for three replicas, the labels `app = foo` and `tier = web`
and no affinity, the first invocation visits `app` first; on the deployment with its
operations replayed, a second invocation whose map range visits `tier` first (a
permutation of the entries) returns appends only, but not in the order of the
first. -/
theorem affinityFunc_reinvoked_order_differs :
    ∃ ops deploy' ops',
      affinityFunc
        (sampleEnv (.error "") (.ok (sampleDeployment (some 3) [("app", "foo"), ("tier", "web")])))
        (sampleRequest deployResource "default") = .returned ops none ∧
      applyPatch (sampleDeployment (some 3) [("app", "foo"), ("tier", "web")]) ops = some deploy' ∧
      affinityFunc (reversedRange (sampleEnv (.error "") (.ok deploy')))
        (sampleRequest deployResource "default") = .returned ops' none ∧
      (∀ m, ((reversedRange (sampleEnv (.error "") (.ok deploy'))).rangeLabels m).Perm m) ∧
      (∀ op ∈ ops', isAppend op = true) ∧
      ops'.filterMap podTermLabel =
        [("tier", "web"), ("tier", "web"), ("tier", "web"),
         ("app", "foo"), ("app", "foo"), ("app", "foo")] ∧
      (ops.filter isAppend).filterMap podTermLabel =
        [("app", "foo"), ("app", "foo"), ("app", "foo"),
         ("tier", "web"), ("tier", "web"), ("tier", "web")] ∧
      ops' ≠ ops.filter isAppend :=
  ⟨_, _, _, rfl, rfl, rfl, fun m => List.reverse_perm m, by decide, by decide, by decide,
    by decide⟩

end Webhook
